import Mathlib

/-!
Verification development for the LED-topology repository ("LTP", LED Transport
Protocol).  The Python sources under `src/` are shallowly embedded: numpy
`uint8` buffers become `List Nat` with explicit `% 256` where the code
truncates, fallible code returns `Except`/`Option`, and stateful handlers
become explicit state-passing functions.  Each embedded definition cites the
Python function it translates.
-/

namespace LTP

/-- `ColorFormat` enumeration from `libltp/types.py`. -/
inductive ColorFormat
  | RGB
  | RGBW
  | HSV
  | GRAYSCALE
deriving DecidableEq, Repr

/-- Wire value of each color format (the `IntEnum` values). -/
def ColorFormat.value : ColorFormat → Nat
  | .RGB => 0x01
  | .RGBW => 0x02
  | .HSV => 0x03
  | .GRAYSCALE => 0x04

/-- `ColorFormat.bytes_per_pixel` property. -/
def ColorFormat.bytesPerPixel : ColorFormat → Nat
  | .RGB => 3
  | .RGBW => 4
  | .HSV => 3
  | .GRAYSCALE => 1

/-- `color_format.name.lower()`. -/
def ColorFormat.lowerName : ColorFormat → String
  | .RGB => "rgb"
  | .RGBW => "rgbw"
  | .HSV => "hsv"
  | .GRAYSCALE => "grayscale"

/-- `ColorFormat(n)` enum construction: `some` for defined wire values; `none`
models the `ValueError` Python raises for undefined values. -/
def ColorFormat.ofValue (n : Nat) : Option ColorFormat :=
  if n = 1 then some .RGB
  else if n = 2 then some .RGBW
  else if n = 3 then some .HSV
  else if n = 4 then some .GRAYSCALE
  else none

/-- `Encoding` enumeration from `libltp/types.py`. -/
inductive Encoding
  | RAW
  | RLE
  | DELTA
deriving DecidableEq, Repr

/-- Wire value of each encoding. -/
def Encoding.value : Encoding → Nat
  | .RAW => 0x00
  | .RLE => 0x01
  | .DELTA => 0x02

/-- `Encoding(n)` enum construction; `none` models the `ValueError` on
undefined values. -/
def Encoding.ofValue (n : Nat) : Option Encoding :=
  if n = 0 then some .RAW
  else if n = 1 then some .RLE
  else if n = 2 then some .DELTA
  else none

/-- `ErrorCode` enumeration from `libltp/types.py`. -/
inductive ErrorCode
  | OK
  | INVALID_FORMAT
  | BUSY
  | RATE_LIMIT
  | NOT_FOUND
  | INTERNAL
  | INVALID_VALUE
  | READONLY
deriving DecidableEq, Repr

/-- Numeric code of each `ErrorCode`. -/
def ErrorCode.code : ErrorCode → Nat
  | .OK => 0
  | .INVALID_FORMAT => 1
  | .BUSY => 2
  | .RATE_LIMIT => 3
  | .NOT_FOUND => 4
  | .INTERNAL => 5
  | .INVALID_VALUE => 6
  | .READONLY => 7

/-- Exceptions `DataPacket.from_bytes` / `to_bytes` can raise:
`protocol c` is `ProtocolError` with code `c`; `valueError` is the plain
`ValueError` raised by `ColorFormat(...)` / `Encoding(...)` on undefined
values; `structError` is `struct.error` from `struct.pack` on out-of-range
fields. -/
inductive PacketErr
  | protocol (code : ErrorCode)
  | valueError
  | structError
deriving DecidableEq, Repr

/-- Big-endian 16-bit serialization (`struct.pack ">H"`), as two bytes. -/
def be16 (n : Nat) : List Nat :=
  [n / 256 % 256, n % 256]

/-- Big-endian 32-bit serialization (`struct.pack ">I"`), as four bytes. -/
def be32 (n : Nat) : List Nat :=
  [n / 16777216 % 256, n / 65536 % 256, n / 256 % 256, n % 256]

/-- Big-endian 16-bit parse (`struct.unpack ">H"`). -/
def de16 (a b : Nat) : Nat :=
  a * 256 + b

/-- Big-endian 32-bit parse (`struct.unpack ">I"`). -/
def de32 (a b c d : Nat) : Nat :=
  a * 16777216 + b * 65536 + c * 256 + d

/-- `PACKET_MAGIC` from `libltp/types.py`. -/
def PACKET_MAGIC : Nat := 0x4C54

/-- `DataPacket` from `libltp/protocol.py`.  `pixel_data` is the 2-d numpy
array `(pixel_count, bytes_per_pixel)`, embedded as a list of pixels, each a
list of byte values. -/
structure DataPacket where
  sequence : Nat
  color_format : ColorFormat
  encoding : Encoding
  flags : Nat
  pixel_data : List (List Nat)
deriving DecidableEq, Repr

/-- `DataPacket.pixel_count` for the 2-d `pixel_data` representation. -/
def DataPacket.pixelCount (p : DataPacket) : Nat :=
  p.pixel_data.length

/-- `DataPacket._encode_raw`: `pixel_data.astype(np.uint8).tobytes()`;
the `uint8` cast truncates each component mod 256. -/
def encodeRaw (pd : List (List Nat)) : List Nat :=
  pd.flatten.map (· % 256)

/-- Length of the run of leading elements of `l` equal to `p` (the inner
`while` of `DataPacket._encode_rle` before the 255 cap). -/
def runLen (p : List Nat) : List (List Nat) → Nat
  | [] => 0
  | q :: rest => if q = p then runLen p rest + 1 else 0

/-- `DataPacket._encode_rle`: greedy runs of equal pixels, count byte capped
at 255 (a run of `k + 1` pixels where `k ≤ 254` extra pixels are absorbed),
each run emitted as `count :: pixel bytes`. -/
def encodeRle : List (List Nat) → List Nat
  | [] => []
  | p :: rest =>
    let k := min (runLen p rest) 254
    (k + 1) :: (p ++ encodeRle (rest.drop k))
termination_by l => l.length
decreasing_by
  simp only [List.length_drop, List.length_cons]
  omega

/-- numpy `frombuffer(...).reshape(n, bpp)` on a buffer of exactly `n * bpp`
bytes: pixel `i` is bytes `[i*bpp, (i+1)*bpp)`. -/
def reshapePixels (n bpp : Nat) (l : List Nat) : List (List Nat) :=
  (List.range n).map fun i => (l.drop (i * bpp)).take bpp

/-- `DataPacket._decode_raw`: fails with `INVALID_FORMAT` when the payload is
shorter than `pixel_count * bpp`, else reads exactly that many bytes. -/
def decodeRaw (data : List Nat) (fmt : ColorFormat) (pixelCount : Nat) :
    Except PacketErr (List (List Nat)) :=
  let bpp := fmt.bytesPerPixel
  if data.length < pixelCount * bpp then
    .error (.protocol .INVALID_FORMAT)
  else
    .ok (reshapePixels pixelCount bpp (data.take (pixelCount * bpp)))

/-- The `while pos < len(data) and pixel_idx < pixel_count` loop of
`DataPacket._decode_rle`: returns the pixels actually written.  `budget` is
`pixel_count - pixel_idx`; a run is clamped to the budget
(`end_idx = min(pixel_idx + count, pixel_count)`), and the loop breaks when a
run's color bytes would overrun the data (`pos + bpp > len(data)`). -/
def decodeRleAux : List Nat → Nat → Nat → List (List Nat)
  | [], _, _ => []
  | _ :: _, _, 0 => []
  | c :: rest, bpp, budget + 1 =>
    if rest.length < bpp then []
    else
      let color := rest.take bpp
      let k := min c (budget + 1)
      List.replicate k color ++ decodeRleAux (rest.drop bpp) bpp (budget + 1 - k)
termination_by l _ _ => l.length
decreasing_by
  simp only [List.length_drop, List.length_cons]
  omega

/-- `DataPacket._decode_rle`: a zero-initialized `(pixel_count, bpp)` buffer
whose prefix is overwritten by the decoded runs; the unwritten remainder stays
zero-filled. -/
def decodeRle (data : List Nat) (fmt : ColorFormat) (pixelCount : Nat) :
    List (List Nat) :=
  let bpp := fmt.bytesPerPixel
  let written := decodeRleAux data bpp pixelCount
  written ++ List.replicate (pixelCount - written.length)
    (List.replicate bpp 0)

/-- `DataPacket.to_bytes`: 8-byte packet header (`magic, ver|flags, reserved,
sequence & 0xFFFFFFFF`), 4-byte frame header (`color_fmt, encoding,
pixel_count` — `struct.pack ">H"` raises `struct.error` when `pixel_count`
exceeds 0xFFFF), then the RAW or RLE payload; `DELTA` raises `ProtocolError`
with `INVALID_FORMAT`. -/
def DataPacket.toBytes (p : DataPacket) : Except PacketErr (List Nat) :=
  let verFlags := p.flags % 16
  let seq := p.sequence % 4294967296
  if p.pixelCount ≥ 65536 then .error .structError
  else
    match p.encoding with
    | .RAW =>
        .ok ([0x4C, 0x54, verFlags, 0] ++ be32 seq ++
          [p.color_format.value, Encoding.value .RAW] ++ be16 p.pixelCount ++
          encodeRaw p.pixel_data)
    | .RLE =>
        .ok ([0x4C, 0x54, verFlags, 0] ++ be32 seq ++
          [p.color_format.value, Encoding.value .RLE] ++ be16 p.pixelCount ++
          encodeRle p.pixel_data)
    | .DELTA => .error (.protocol .INVALID_FORMAT)

/-- `DataPacket.from_bytes`: rejects inputs shorter than the 8-byte header
plus 4-byte frame header with `INVALID_FORMAT`; checks the magic; constructs
the `ColorFormat` then the `Encoding` enums (undefined bytes raise
`ValueError`); dispatches on the encoding (`DELTA` reaches the unsupported
branch and raises `INVALID_FORMAT`). -/
def DataPacket.fromBytes : List Nat → Except PacketErr DataPacket
  | m1 :: m2 :: vf :: _r :: s1 :: s2 :: s3 :: s4 :: cf :: en :: n1 :: n2 :: rest =>
    if de16 m1 m2 ≠ PACKET_MAGIC then .error (.protocol .INVALID_FORMAT)
    else
      match ColorFormat.ofValue cf with
      | none => .error .valueError
      | some fmt =>
        match Encoding.ofValue en with
        | none => .error .valueError
        | some enc =>
          let seq := de32 s1 s2 s3 s4
          let pixelCount := de16 n1 n2
          let flags := vf % 16
          match enc with
          | .RAW =>
              (decodeRaw rest fmt pixelCount).map fun pd =>
                ⟨seq, fmt, .RAW, flags, pd⟩
          | .RLE =>
              .ok ⟨seq, fmt, .RLE, flags, decodeRle rest fmt pixelCount⟩
          | .DELTA => .error (.protocol .INVALID_FORMAT)
  | _ => .error (.protocol .INVALID_FORMAT)

/-! ## Python dict helpers

Python `dict` preserves insertion order; assignment overwrites in place,
new keys append.  Embedded as association lists with these two operations. -/

/-- `d[k]` lookup / `d.get(k)`: the value of the unique entry for `k`. -/
def pyDictGet {α β : Type} [DecidableEq α] (d : List (α × β)) (k : α) : Option β :=
  (d.find? fun kv => kv.1 = k).map (·.2)

/-- `d[k] = v` assignment: overwrite in place if present, else append. -/
def pyDictSet {α β : Type} [DecidableEq α] (d : List (α × β)) (k : α) (v : β) :
    List (α × β) :=
  if d.any (fun kv => kv.1 = k) then
    d.map fun kv => if kv.1 = k then (k, v) else kv
  else d ++ [(k, v)]

/-! ## Topology (`libltp/topology.py`) -/

/-- `MatrixOrigin` from `libltp/types.py`. -/
inductive MatrixOrigin
  | TOP_LEFT
  | TOP_RIGHT
  | BOTTOM_LEFT
  | BOTTOM_RIGHT
deriving DecidableEq, Repr

/-- `MatrixOrder` from `libltp/types.py`. -/
inductive MatrixOrder
  | ROW_MAJOR
  | COLUMN_MAJOR
deriving DecidableEq, Repr

/-- `MatrixTopology` from `libltp/types.py`; `dimensions = (width, height)`. -/
structure MatrixTopology where
  width : Nat
  height : Nat
  origin : MatrixOrigin
  order : MatrixOrder
  serpentine : Bool
deriving DecidableEq, Repr

/-- `origin in (MatrixOrigin.BOTTOM_LEFT, MatrixOrigin.BOTTOM_RIGHT)`. -/
def MatrixOrigin.isBottom : MatrixOrigin → Bool
  | .BOTTOM_LEFT => true
  | .BOTTOM_RIGHT => true
  | _ => false

/-- `origin in (MatrixOrigin.TOP_RIGHT, MatrixOrigin.BOTTOM_RIGHT)`. -/
def MatrixOrigin.isRight : MatrixOrigin → Bool
  | .TOP_RIGHT => true
  | .BOTTOM_RIGHT => true
  | _ => false

/-- `range(n)`, possibly reversed by the origin adjustment. -/
def baseSeq (n : Nat) (rev : Bool) : List Nat :=
  if rev then (List.range n).reverse else List.range n

/-- The visit order of `TopologyMapper._build_matrix_mapping`: the list of
`(col, row)` grid positions in increasing pixel-index order.  Row-major walks
the (origin-adjusted) rows and for each row the (origin-adjusted) columns,
with every odd-positioned row reversed when serpentine; column-major swaps
the roles. -/
def buildMatrixMapping (t : MatrixTopology) : List (Nat × Nat) :=
  match t.order with
  | .ROW_MAJOR =>
    let rows := baseSeq t.height t.origin.isBottom
    let colsBase := baseSeq t.width t.origin.isRight
    rows.enum.flatMap fun rowIdxRow =>
      let cols := if t.serpentine && rowIdxRow.1 % 2 == 1 then colsBase.reverse
        else colsBase
      cols.map fun col => (col, rowIdxRow.2)
  | .COLUMN_MAJOR =>
    let cols := baseSeq t.width t.origin.isRight
    let rowsBase := baseSeq t.height t.origin.isBottom
    cols.enum.flatMap fun colIdxCol =>
      let rows := if t.serpentine && colIdxCol.1 % 2 == 1 then rowsBase.reverse
        else rowsBase
      rows.map fun row => (colIdxCol.2, row)

/-- The `_coord_to_index` dict: the Python loop assigns
`_coord_to_index[(col, row)] = index` with `index` counting up through the
visit order. -/
def coordToIndexDict (t : MatrixTopology) : List ((Nat × Nat) × Nat) :=
  (buildMatrixMapping t).enum.foldl (fun d iv => pyDictSet d iv.2 iv.1) []

/-- `TopologyMapper.grid_to_index`: `self._coord_to_index.get((col, row))`. -/
def gridToIndex (t : MatrixTopology) (col row : Nat) : Option Nat :=
  pyDictGet (coordToIndexDict t) (col, row)

/-- `TopologyMapper.index_to_grid` (matrix case): scan `_coord_to_index`
items in insertion order for the first entry whose value is `index`. -/
def indexToGrid (t : MatrixTopology) (index : Nat) : Option (Nat × Nat) :=
  ((coordToIndexDict t).find? fun kv => kv.2 = index).map (·.1)

/-! ## Controller health checking and discovery (`ltp_controller/controller.py`) -/

/-- The `FAILURES_BEFORE_OFFLINE` constant in `Controller._ping_device`. -/
def FAILURES_BEFORE_OFFLINE : Nat := 5

/-- The part of `DeviceState` that `_ping_device` reads and writes. -/
structure HealthState where
  online : Bool
  consecutiveFailures : Nat
deriving DecidableEq, Repr

/-- `Controller._ping_device` outcome on one health check: `success` is
whether the TCP connect succeeded.  On success the failure counter resets and
a previously offline device comes back online with the state-change callback
fired; on failure the counter increments, and an online device is flipped
offline (with callback) only once the counter reaches
`FAILURES_BEFORE_OFFLINE`.  The returned `Bool` is whether the state-change
callback fired. -/
def pingDevice (st : HealthState) (success : Bool) : HealthState × Bool :=
  if success then
    if st.online then ({ online := true, consecutiveFailures := 0 }, false)
    else ({ online := true, consecutiveFailures := 0 }, true)
  else
    let f := st.consecutiveFailures + 1
    if st.online ∧ f ≥ FAILURES_BEFORE_OFFLINE then
      ({ online := false, consecutiveFailures := f }, true)
    else
      ({ online := st.online, consecutiveFailures := f }, false)

/-- `k` consecutive failed health checks. -/
def pingFailures (st : HealthState) (k : Nat) : HealthState :=
  (fun s => (pingDevice s false).1)^[k] st

/-- The fields of `DeviceState` that the discovery handlers mutate
(`datetime.now()` is abstracted as a tick counter). -/
structure DeviceRecord where
  online : Bool
  firstSeen : Nat
  lastSeen : Nat
deriving DecidableEq, Repr

/-- `Controller._handle_source` / `_handle_sink` (they are identical up to
which map and callback they use): the device map is keyed by service-instance
name.  On an Added/Updated event a known device is updated (`last_seen`,
`online = True`) and a new one inserted with the `DeviceState` defaults
(`online = True`, both timestamps now), firing the change callback with
`is_added = True` either way.  On a Removed event a known device has
`online` set to `False` and the callback fires with `is_added = False`; an
unknown device is ignored.  The capability fetch and logging are side effects
not modelled.  Returns the new map and the callback invocation, if any. -/
def handleDeviceEvent (devices : List (String × DeviceRecord)) (deviceKey : String)
    (isAdded : Bool) (now : Nat) :
    List (String × DeviceRecord) × Option (String × Bool) :=
  if isAdded then
    match pyDictGet devices deviceKey with
    | some st =>
        (pyDictSet devices deviceKey { st with lastSeen := now, online := true },
          some (deviceKey, true))
    | none =>
        (pyDictSet devices deviceKey
          { online := true, firstSeen := now, lastSeen := now },
          some (deviceKey, true))
  else
    match pyDictGet devices deviceKey with
    | some st =>
        (pyDictSet devices deviceKey { st with online := false },
          some (deviceKey, false))
    | none => (devices, none)

/-! ## Routing engine (`ltp_controller/router.py`) -/

/-- `ScaleMode` from `libltp/types.py`. -/
inductive ScaleMode
  | NONE
  | FIT
  | FILL
  | STRETCH
  | PAD_BLACK
  | PAD_REPEAT
  | TRUNCATE
deriving DecidableEq, Repr

/-- `RouteMode` from `ltp_controller/router.py`. -/
inductive RouteMode
  | PROXY
  | DIRECT
deriving DecidableEq, Repr

/-- `RouteStatus` from `ltp_controller/router.py`. -/
inductive RouteStatus
  | DISCONNECTED
  | CONNECTING
  | CONNECTED
  | ERROR
deriving DecidableEq, Repr

/-- `RouteTransform` dataclass (floats as rationals). -/
structure RouteTransform where
  scale_mode : ScaleMode := .FIT
  brightness : ℚ := 1
  gamma : ℚ := 1
  mirror_x : Bool := false
  mirror_y : Bool := false
deriving DecidableEq, Repr

/-- The configuration fields of the `Route` dataclass (runtime fields —
clients, sockets, counters — are connection state not touched by
`create_route`). -/
structure Route where
  id : String
  name : String
  source_id : String
  sink_id : String
  enabled : Bool
  mode : RouteMode
  transform : RouteTransform
  status : RouteStatus
deriving DecidableEq, Repr

/-- `RoutingEngine.route_exists`: scan `self._routes.values()` for a route
with the same source and sink ids. -/
def routeExists (routes : List (String × Route)) (sourceId sinkId : String) : Bool :=
  routes.any fun kv => kv.2.source_id = sourceId ∧ kv.2.sink_id = sinkId

/-- `RoutingEngine.create_route`: returns `none` (and leaves the table
untouched) when a route for the `(source_id, sink_id)` pair exists; otherwise
inserts a fresh route with status `DISCONNECTED`.  The random
`str(uuid4())[:8]` id is passed in as `routeId`; the pending-start
bookkeeping is engine scheduling, not table state. -/
def createRoute (routes : List (String × Route)) (routeId name sourceId sinkId : String)
    (mode : RouteMode) (transform : RouteTransform) (enabled : Bool) :
    List (String × Route) × Option Route :=
  if routeExists routes sourceId sinkId then
    (routes, none)
  else
    let route : Route :=
      ⟨routeId, name, sourceId, sinkId, enabled, mode, transform, .DISCONNECTED⟩
    (pyDictSet routes routeId route, some route)

/-! ## Controls (`libltp/controls.py`)

Control values and raw inputs live in one Python value universe: numbers
(ints and floats, embedded as rationals), strings, and booleans.  The
`ActionControl` / `ArrayControl` variants and the regex `pattern` option of
`StringControl` are outside the embedded universe (heterogeneous lists and a
regex engine) and are not needed by any claim. -/

/-- Embedded universe of Python values handled by the control registry. -/
inductive PyValue
  | num (x : ℚ)
  | str (s : String)
  | boolean (b : Bool)
deriving DecidableEq, Repr

/-- Value of a run of decimal digit characters. -/
def digitsVal (l : List Char) : Nat :=
  l.foldl (fun n c => n * 10 + (c.toNat - 48)) 0

/-- Whitespace stripped by Python `float(str)`. -/
def isSpaceChar (c : Char) : Bool :=
  c = ' ' ∨ c = '\t' ∨ c = '\n' ∨ c = '\r'

/-- Unsigned decimal numeral (digits with an optional single point, at least
one digit in total), as Python `float` accepts. -/
def parseUnsignedDec (l : List Char) : Option ℚ :=
  let ip := l.takeWhile (·.isDigit)
  match l.dropWhile (·.isDigit) with
  | [] => if ip.isEmpty then none else some (digitsVal ip : ℚ)
  | c :: fp =>
    if c = '.' ∧ fp.all (·.isDigit) ∧ ip.length + fp.length ≠ 0 then
      some ((digitsVal ip : ℚ) + (digitsVal fp : ℚ) / (10 : ℚ) ^ fp.length)
    else none

/-- Python `float(s)` on a string: surrounding whitespace stripped, optional
sign, decimal numeral.  (The exotic forms — exponents, `inf`, `nan`,
underscores — are not exercised by the code or claims.) -/
def pyFloatOfString (s : String) : Option ℚ :=
  let t := (((s.toList.dropWhile isSpaceChar).reverse.dropWhile
    isSpaceChar).reverse)
  match t with
  | '-' :: rest => (parseUnsignedDec rest).map (fun q => -q)
  | '+' :: rest => parseUnsignedDec rest
  | _ => parseUnsignedDec t

/-- Python `float(value)` over the embedded universe: numbers pass through,
booleans convert to 0/1, strings parse; `none` is the
`TypeError`/`ValueError` caught by `NumberControl.validate_value`. -/
def pyFloat : PyValue → Option ℚ
  | .num x => some x
  | .boolean b => some (if b then 1 else 0)
  | .str s => pyFloatOfString s

/-- Python `str(value)` over the embedded universe.  (For non-integral
numbers Lean's rational rendering differs from CPython float repr; no claim
depends on it.) -/
def pyStr : PyValue → String
  | .str s => s
  | .boolean b => if b then "True" else "False"
  | .num x => toString x

/-- Python truthiness over the embedded universe. -/
def pyTruthy : PyValue → Bool
  | .num x => x ≠ 0
  | .str s => s.length ≠ 0
  | .boolean b => b

/-- Fields shared by every control (`ControlBase`). -/
structure ControlCommon where
  id : String
  name : String
  description : String
  readonly : Bool
  group : String
deriving DecidableEq, Repr

/-- `EnumOption` model. -/
structure EnumOption where
  value : String
  label : String
  description : String
deriving DecidableEq, Repr

/-- The control sum type (`Control` union in `libltp/controls.py`),
restricted to the embedded value universe. -/
inductive Control
  | boolean (c : ControlCommon) (value : Bool)
  | number (c : ControlCommon) (value : ℚ) (min max : Option ℚ) (step : ℚ)
      (unit : String)
  | string (c : ControlCommon) (value : String) (minLength maxLength : Option Nat)
  | enum (c : ControlCommon) (value : String) (options : List EnumOption)
  | color (c : ControlCommon) (value : String) (alpha : Bool)
deriving DecidableEq, Repr

/-- Common fields of a control. -/
def Control.common : Control → ControlCommon
  | .boolean c _ => c
  | .number c _ _ _ _ _ => c
  | .string c _ _ _ => c
  | .enum c _ _ => c
  | .color c _ _ => c

/-- `control.id`. -/
def Control.cid (c : Control) : String := c.common.id

/-- `control.readonly`. -/
def Control.readonly (c : Control) : Bool := c.common.readonly

/-- `control.value` as a `PyValue`. -/
def Control.value : Control → PyValue
  | .boolean _ v => .boolean v
  | .number _ v _ _ _ _ => .num v
  | .string _ v _ _ => .str v
  | .enum _ v _ => .str v
  | .color _ v _ => .str v

/-- `BooleanControl.validate_value`: booleans pass; recognized truthy/falsy
strings convert; numbers convert by truthiness; anything else raises. -/
def validateBoolean (v : PyValue) : Except String Bool :=
  match v with
  | .boolean b => .ok b
  | .str s =>
    let ls := s.toLower
    if ls = "true" ∨ ls = "1" ∨ ls = "yes" ∨ ls = "on" then .ok true
    else if ls = "false" ∨ ls = "0" ∨ ls = "no" ∨ ls = "off" then .ok false
    else .error "Cannot convert str to boolean"
  | .num x => .ok (x ≠ 0)

/-- `NumberControl.validate_value`: coerce with `float(...)`, then check the
optional minimum and maximum bounds. -/
def validateNumber (mn mx : Option ℚ) (v : PyValue) : Except String ℚ :=
  match pyFloat v with
  | none => .error "Cannot convert to number"
  | some num =>
    if (match mn with | some m => decide (num < m) | none => false) then
      .error "Value is below minimum"
    else if (match mx with | some m => decide (m < num) | none => false) then
      .error "Value exceeds maximum"
    else .ok num

/-- `StringControl.validate_value` (regex `pattern` option not embedded):
`str(value)` then the optional length bounds. -/
def validateString (minLength maxLength : Option Nat) (v : PyValue) :
    Except String String :=
  let s := pyStr v
  if (match minLength with | some m => decide (s.length < m) | none => false) then
    .error "String length is below minimum"
  else if (match maxLength with | some m => decide (m < s.length) | none => false) then
    .error "String length exceeds maximum"
  else .ok s

/-- `EnumControl.validate_value`: `str(value)` must be one of the option
values. -/
def validateEnum (options : List EnumOption) (v : PyValue) : Except String String :=
  let s := pyStr v
  if options.any (fun o => o.value = s) then .ok s
  else .error "Value not in allowed options"

/-- `re.match` of `^#[0-9A-Fa-f]{n}$`. -/
def matchesHexColor (s : String) (n : Nat) : Bool :=
  match s.toList with
  | c :: rest => c = '#' ∧ rest.length = n ∧ rest.all fun d =>
      d.isDigit ∨ ('A' ≤ d ∧ d ≤ 'F') ∨ ('a' ≤ d ∧ d ≤ 'f')
  | [] => false

/-- `ColorControl.validate_value`: uppercase `str(value)`; with alpha an
8-hex value passes, a 6-hex value gains an `FF` alpha, anything else raises;
without alpha only 6-hex passes. -/
def validateColor (alpha : Bool) (v : PyValue) : Except String String :=
  let s := (pyStr v).toUpper
  if alpha then
    if matchesHexColor s 8 then .ok s
    else if matchesHexColor s 6 then .ok (s ++ "FF")
    else .error "Invalid RGBA color format"
  else
    if matchesHexColor s 6 then .ok s
    else .error "Invalid RGB color format"

/-- `control.validate_value(value)` dispatch. -/
def Control.validateValue : Control → PyValue → Except String PyValue
  | .boolean _ _, v => (validateBoolean v).map .boolean
  | .number _ _ mn mx _ _, v => (validateNumber mn mx v).map .num
  | .string _ _ a b, v => (validateString a b v).map .str
  | .enum _ _ o, v => (validateEnum o v).map .str
  | .color _ _ a, v => (validateColor a v).map .str

/-- The `model_dump` / reconstruct step of `ControlRegistry.set_value`: the
same control with the value field replaced by the validated value.  (The
catch-all keeps the control unchanged; it is unreachable because each
validator returns its own variant's value shape.) -/
def Control.withValue : Control → PyValue → Control
  | .boolean cc _, .boolean b => .boolean cc b
  | .number cc _ mn mx st u, .num x => .number cc x mn mx st u
  | .string cc _ a b, .str s => .string cc s a b
  | .enum cc _ o, .str s => .enum cc s o
  | .color cc _ a, .str s => .color cc s a
  | c, _ => c

/-- One observer invocation, as recorded by the pure embedding: which
callback (by registration identity) was called with which
`(control_id, old_value, new_value)` arguments. -/
structure ChangeEvent where
  callback : Nat
  controlId : String
  oldValue : PyValue
  newValue : PyValue
deriving DecidableEq, Repr

/-- `ControlRegistry` state: the ordered control dict plus the per-id
callback lists (callbacks identified by registration order tokens). -/
structure ControlRegistry where
  controls : List (String × Control)
  callbacks : List (String × List Nat)
deriving DecidableEq, Repr

/-- `ControlRegistry.register`: insert, duplicate id overwrites. -/
def ControlRegistry.register (r : ControlRegistry) (c : Control) : ControlRegistry :=
  { r with controls := pyDictSet r.controls c.cid c }

/-- `ControlRegistry.on_change`: append a callback to the id's list. -/
def ControlRegistry.onChange (r : ControlRegistry) (cid : String) (cb : Nat) :
    ControlRegistry :=
  match pyDictGet r.callbacks cid with
  | some l => { r with callbacks := pyDictSet r.callbacks cid (l ++ [cb]) }
  | none => { r with callbacks := r.callbacks ++ [(cid, [cb])] }

/-- The two exceptions `ControlRegistry.set_value` can raise: `KeyError` for
an unknown id, `ControlValidationError` (readonly or failed validation). -/
inductive SetErr
  | keyError
  | validationError (message : String)
deriving DecidableEq, Repr

/-- `ControlRegistry.set_value` as a state transformer.  The failure branches
return the registry unchanged and no events — the Python code raises before
any mutation.  On success the stored control is rebuilt with the validated
value, the dict entry replaced, and then each callback registered for the id
fires once with `(control_id, old_value, validated)`. -/
def ControlRegistry.setValue (r : ControlRegistry) (cid : String) (v : PyValue) :
    ControlRegistry × List ChangeEvent × Except SetErr PyValue :=
  match pyDictGet r.controls cid with
  | none => (r, [], .error .keyError)
  | some control =>
    if control.readonly then
      (r, [], .error (.validationError "Control is read-only"))
    else
      let oldValue := control.value
      match control.validateValue v with
      | .error m => (r, [], .error (.validationError m))
      | .ok validated =>
        let newControl := control.withValue validated
        let r1 := { r with controls := pyDictSet r.controls cid newControl }
        let events := ((pyDictGet r.callbacks cid).getD []).map
          fun cb => ChangeEvent.mk cb cid oldValue validated
        (r1, events, .ok validated)

/-- `ControlRegistry.set_values`: best-effort over the `(id, raw)` pairs in
order; a `KeyError` becomes an errors entry with code 4, a
`ControlValidationError` one with code 6. -/
def ControlRegistry.setValues (r : ControlRegistry) (values : List (String × PyValue)) :
    ControlRegistry × List ChangeEvent × List (String × PyValue) ×
      List (String × Nat × String) :=
  values.foldl
    (fun acc kv =>
      let (reg, evs, applied, errors) := acc
      let (reg1, evs1, res) := reg.setValue kv.1 kv.2
      match res with
      | .ok val => (reg1, evs ++ evs1, applied ++ [(kv.1, val)], errors)
      | .error .keyError =>
          (reg1, evs ++ evs1, applied,
            errors ++ [(kv.1, 4, "Unknown control: " ++ kv.1)])
      | .error (.validationError m) =>
          (reg1, evs ++ evs1, applied, errors ++ [(kv.1, 6, m)]))
    (r, [], [], [])

/-! ## Stream manager (`libltp/transport.py`) -/

/-- One stream registry entry.  A `DataSender` is its `(host, port)` target;
`hasReceiver` stands for the optional `DataReceiver`. -/
structure StreamEntry where
  sender : Option (String × Nat)
  hasReceiver : Bool
  colorFormat : ColorFormat
  encoding : Encoding
  active : Bool
  framesSent : Nat
  framesReceived : Nat
deriving DecidableEq, Repr

/-- `StreamManager` state. -/
structure StreamManager where
  streams : List (String × StreamEntry)
  nextId : Nat
deriving DecidableEq, Repr

/-- Stream-id formatting `f"stream-{n:04d}"`. -/
def streamName (n : Nat) : String :=
  let s := toString n
  "stream-" ++ String.mk (List.replicate (4 - s.length) '0') ++ s

/-- `StreamManager.create_stream`: allocate the next id and insert an
entry that is not active with zero frame counters. -/
def StreamManager.createStream (m : StreamManager) (sender : Option (String × Nat))
    (hasReceiver : Bool) (colorFormat : ColorFormat) (encoding : Encoding) :
    StreamManager × String :=
  let nid := m.nextId + 1
  let sid := streamName nid
  let entry : StreamEntry := ⟨sender, hasReceiver, colorFormat, encoding, false, 0, 0⟩
  ({ streams := pyDictSet m.streams sid entry, nextId := nid }, sid)

/-- `StreamManager.start_stream`: mark active if present. -/
def StreamManager.startStream (m : StreamManager) (sid : String) : StreamManager :=
  match pyDictGet m.streams sid with
  | some e => { m with streams := pyDictSet m.streams sid { e with active := true } }
  | none => m

/-- `StreamManager.stop_stream`: mark inactive if present. -/
def StreamManager.stopStream (m : StreamManager) (sid : String) : StreamManager :=
  match pyDictGet m.streams sid with
  | some e => { m with streams := pyDictSet m.streams sid { e with active := false } }
  | none => m

/-- `StreamManager.active_streams`. -/
def StreamManager.activeStreams (m : StreamManager) : List String :=
  (m.streams.filter fun kv => kv.2.active).map (·.1)

/-! ## Control-channel message types and the subscribe message -/

/-- `MessageType` values from `libltp/types.py` (the ones device endpoints
dispatch on). -/
inductive MessageType
  | CAPABILITY_REQUEST
  | CAPABILITY_RESPONSE
  | STREAM_SETUP
  | STREAM_SETUP_RESPONSE
  | STREAM_CONTROL
  | STREAM_CONTROL_RESPONSE
  | CONTROL_GET
  | CONTROL_GET_RESPONSE
  | CONTROL_SET
  | CONTROL_SET_RESPONSE
  | CONTROL_CHANGED
  | SUBSCRIBE
  | SUBSCRIBE_RESPONSE
  | ERROR
deriving DecidableEq, Repr

/-- A JSON value (enough of it for control messages). -/
inductive Json
  | str (s : String)
  | nat (n : Nat)
  | list (l : List Json)
  | obj (kvs : List (String × Json))
deriving Repr

/-- The `subscribe(seq, dimensions, color, rate)` helper in
`libltp/protocol.py`, as the dict `Message.to_dict` would serialize: a
`type`, the `seq`, and a `target` object holding dimensions, color and rate.
The helper takes no callback arguments and the message carries no
callback fields. -/
def subscribeMsgDict (seq : Nat) (dimensions : List Nat) (color : String)
    (rate : Nat) : List (String × Json) :=
  [("type", .str "subscribe"),
   ("seq", .nat seq),
   ("target", .obj
     [("dimensions", .list (dimensions.map .nat)),
      ("color", .str color),
      ("rate", .nat rate)])]

/-! ## Source endpoint (`ltp_source/source.py`) -/

/-- `Source._handle_message` dispatch: the message types the source handles;
every other type returns `None`. -/
def sourceHandlesMessageType : MessageType → Bool
  | .CAPABILITY_REQUEST => true
  | .SUBSCRIBE => true
  | .CONTROL_GET => true
  | .CONTROL_SET => true
  | _ => false

/-- Incoming subscribe-message data as the source handler could read it:
the `target` dict plus any top-level callback fields a caller attached. -/
structure SubscribeRequestData where
  dimensions : List Nat
  color : String
  rate : Nat
  callbackHost : Option String
  callbackPort : Option Nat
deriving DecidableEq, Repr

/-- `subscribe_response` payload fields. -/
structure SubscribeResponseMsg where
  status : String
  actualDimensions : List Nat
  actualColor : String
  actualRate : Nat
  streamId : String
deriving DecidableEq, Repr

/-- `Source._handle_subscribe`: creates a stream via
`create_stream(color_format=...)` — so with no sender and not active — and
answers `ok` with the source's own dimensions/color/rate and the new stream
id.  The request's callback fields are never read, no `DataSender` is
started, and the stream is not started. -/
def sourceHandleSubscribe (m : StreamManager) (colorFormat : ColorFormat)
    (dimensions : List Nat) (rateControlValue : Nat) (_msg : SubscribeRequestData) :
    StreamManager × SubscribeResponseMsg :=
  let (m1, sid) := m.createStream none false colorFormat .RAW
  (m1, ⟨"ok", dimensions, colorFormat.lowerName, rateControlValue, sid⟩)

/-- The send stage of one `Source._render_loop` tick: the frame goes to every
stream that is active and has a sender; the result is the list of
`(host, port)` DataSender targets that receive the frame. -/
def renderLoopSendTargets (m : StreamManager) : List (String × Nat) :=
  ((m.streams.filter fun kv => kv.2.active).filterMap fun kv => kv.2.sender)

/-! ## Sink endpoint (`ltp_sink/sink.py`) -/

/-- `Sink._handle_message` dispatch: the message types the sink handles;
every other type — `STREAM_CONTROL` included — returns `None`. -/
def sinkHandlesMessageType : MessageType → Bool
  | .CAPABILITY_REQUEST => true
  | .STREAM_SETUP => true
  | .CONTROL_GET => true
  | .CONTROL_SET => true
  | _ => false

/-- The sink state that `_handle_data_packet` touches: the stream manager,
the persistent pixel buffer, and the control registry. -/
structure SinkState where
  streamManager : StreamManager
  pixelBuffer : List (List Nat)
  controls : ControlRegistry
deriving Repr

/-- numpy `(buffer * brightness).astype(np.uint8)`: float multiply then
truncation toward zero with wraparound mod 256. -/
def applyBrightness (buf : List (List Nat)) (brightness : ℚ) : List (List Nat) :=
  buf.map fun px => px.map fun v => (⌊(v : ℚ) * brightness⌋).toNat % 256

/-- `Sink._generate_test_pattern` (for the 3-channel sink the code writes):
`white` fills every channel, `rgb_sweep` and `gradient` write 3-component
pixels, an unknown pattern leaves the zeros. -/
def generateTestPattern (n : Nat) (channels : Nat) (pattern : String) :
    List (List Nat) :=
  if pattern = "white" then List.replicate n (List.replicate channels 255)
  else if pattern = "rgb_sweep" then
    (List.range n).map fun i =>
      if (i : ℚ) * 3 / (n : ℚ) < 1 then [255, 0, 0]
      else if (i : ℚ) * 3 / (n : ℚ) < 2 then [0, 255, 0]
      else [0, 0, 255]
  else if pattern = "gradient" then
    (List.range n).map fun i =>
      let v := (⌊(i : ℚ) * 255 / (n : ℚ)⌋).toNat
      [v, v, v]
  else List.replicate n (List.replicate channels 0)

/-- `Sink._handle_data_packet`: read brightness (`/ 255.0`); overwrite the
pixel-buffer prefix when the packet fits; scale by brightness; substitute the
test pattern when `test_mode` is truthy; always hand the display frame to the
renderer when one is configured.  No stream state is consulted anywhere.
`none` means a `KeyError` escaped from `get_value` (impossible for a sink
built by `_setup_controls`); otherwise the result is the updated state and
the frame given to the renderer (`some` exactly when a renderer exists). -/
def sinkHandleDataPacket (st : SinkState) (hasRenderer : Bool) (packet : DataPacket) :
    Option (SinkState × Option (List (List Nat))) := do
  let brightnessCtl ← pyDictGet st.controls.controls "brightness"
  let brightnessVal ←
    match brightnessCtl.value with
    | .num x => some x
    | _ => none
  let brightness := brightnessVal / 255
  let buf :=
    if packet.pixel_data.length ≤ st.pixelBuffer.length then
      packet.pixel_data ++ st.pixelBuffer.drop packet.pixel_data.length
    else st.pixelBuffer
  let display := applyBrightness buf brightness
  let testModeCtl ← pyDictGet st.controls.controls "test_mode"
  let display ←
    if pyTruthy testModeCtl.value then do
      let patternCtl ← pyDictGet st.controls.controls "test_pattern"
      some (generateTestPattern st.pixelBuffer.length
        ((st.pixelBuffer.headD []).length) (pyStr patternCtl.value))
    else some display
  some ({ st with pixelBuffer := buf }, if hasRenderer then some display else none)

/-- The sink's control registry as `Sink._setup_controls` builds it. -/
def sinkInitialControls : ControlRegistry :=
  let r0 : ControlRegistry := ⟨[], []⟩
  let r1 := r0.register (.number ⟨"brightness", "Global Brightness",
    "Master brightness applied to display", false, "output"⟩ 255 (some 0) (some 255) 1 "")
  let r2 := r1.register (.number ⟨"gamma", "Gamma Correction",
    "Gamma value for color correction", false, "output"⟩ (22/10) (some 1) (some 3)
    (1/10) "")
  let r3 := r2.register (.boolean ⟨"test_mode", "Test Mode",
    "Display test pattern instead of input", false, "general"⟩ false)
  r3.register (.enum ⟨"test_pattern", "Test Pattern",
    "Pattern to display in test mode", false, "general"⟩ "rgb_sweep"
    [⟨"rgb_sweep", "RGB Sweep", ""⟩, ⟨"white", "All White", ""⟩,
     ⟨"gradient", "Gradient", ""⟩])

/-- Spec-side condition (claim C2, with the encoding clause corrected):
`DataPacket.from_bytes` raises `ProtocolError(INVALID_FORMAT)` exactly when
the input is shorter than the 8 + 4 header bytes, or its first two bytes are
not `0x4C 0x54`, or (with a recognized color-format byte) the encoding byte
is the recognized-but-unsupported DELTA (2), or the encoding is RAW and the
payload is shorter than `pixel_count * bytes_per_pixel`.  Stated on raw byte
lists, following the spec text. -/
def invalidFormatCond : List Nat → Prop
  | m1 :: m2 :: _vf :: _r :: _s1 :: _s2 :: _s3 :: _s4 :: cf :: en :: n1 :: n2
      :: rest =>
    ¬(m1 = 0x4C ∧ m2 = 0x54) ∨
      (m1 = 0x4C ∧ m2 = 0x54 ∧
        ∃ fmt, ColorFormat.ofValue cf = some fmt ∧
          (en = 2 ∨ (en = 0 ∧ rest.length < de16 n1 n2 * fmt.bytesPerPixel)))
  | _ => True

/-- Route-table invariant: no two routes share a `(source_id, sink_id)`
pair. -/
def routeTableUnique (routes : List (String × Route)) : Prop :=
  routes.Pairwise fun a b =>
    ¬(a.2.source_id = b.2.source_id ∧ a.2.sink_id = b.2.sink_id)

/-! # Theorems -/

/-! ## Python dict lemmas -/

theorem find?_key_map_set {α β : Type} [DecidableEq α]
    (d : List (α × β)) (k : α) (v : β)
    (hany : d.any (fun kv => kv.1 = k) = true) :
    ((d.map fun kv => if kv.1 = k then (k, v) else kv).find?
      fun kv => kv.1 = k) = some (k, v) := by
  induction d with
  | nil => simp at hany
  | cons a d ih =>
    by_cases ha : a.1 = k
    · simp [List.find?, ha]
    · have htail : d.any (fun kv => kv.1 = k) = true := by
        simp only [List.any_cons, Bool.or_eq_true, decide_eq_true_eq] at hany
        exact hany.resolve_left ha
      simpa [List.find?, ha] using ih htail

theorem find?_key_append_set {α β : Type} [DecidableEq α]
    (d : List (α × β)) (k : α) (v : β)
    (hany : d.any (fun kv => kv.1 = k) = false) :
    ((d ++ [(k, v)]).find? fun kv => kv.1 = k) = some (k, v) := by
  induction d with
  | nil => simp [List.find?]
  | cons a d ih =>
    simp only [List.any_cons, Bool.or_eq_false_iff, decide_eq_false_iff_not] at hany
    simpa [List.find?, hany.1] using ih (by simpa using hany.2)

theorem find?_ne_map_set {α β : Type} [DecidableEq α]
    (d : List (α × β)) (k : α) (v : β) (k2 : α) (h : k2 ≠ k) :
    ((d.map fun kv => if kv.1 = k then (k, v) else kv).find?
      fun kv => kv.1 = k2) = (d.find? fun kv => kv.1 = k2) := by
  induction d with
  | nil => rfl
  | cons a d ih =>
    by_cases ha : a.1 = k
    · have h1 : ¬((k : α) = k2) := fun hh => h hh.symm
      have h2 : ¬(a.1 = k2) := ha ▸ h1
      simpa [List.find?, ha, h1, h2] using ih
    · by_cases h2 : a.1 = k2
      · simp only [List.map_cons, if_neg ha, List.find?, decide_eq_true h2]
      · simpa [List.find?, ha, h2] using ih

theorem find?_ne_append_set {α β : Type} [DecidableEq α]
    (d : List (α × β)) (k : α) (v : β) (k2 : α) (h : k2 ≠ k) :
    ((d ++ [(k, v)]).find? fun kv => kv.1 = k2) =
      (d.find? fun kv => kv.1 = k2) := by
  induction d with
  | nil =>
    have h1 : ¬((k : α) = k2) := fun hh => h hh.symm
    simp [List.find?, h1]
  | cons a d ih =>
    by_cases h2 : a.1 = k2
    · simp [List.find?, h2]
    · simpa [List.find?, h2] using ih

theorem pyDictGet_pyDictSet_self {α β : Type} [DecidableEq α]
    (d : List (α × β)) (k : α) (v : β) :
    pyDictGet (pyDictSet d k v) k = some v := by
  unfold pyDictGet pyDictSet
  split
  · next hany => rw [find?_key_map_set d k v hany]; rfl
  · next hany =>
    rw [find?_key_append_set d k v (Bool.eq_false_iff.mpr hany)]; rfl

theorem pyDictGet_pyDictSet_ne {α β : Type} [DecidableEq α]
    (d : List (α × β)) (k k2 : α) (v : β) (h : k2 ≠ k) :
    pyDictGet (pyDictSet d k v) k2 = pyDictGet d k2 := by
  unfold pyDictGet pyDictSet
  split
  · rw [find?_ne_map_set d k v k2 h]
  · rw [find?_ne_append_set d k v k2 h]

/-! ## Health-check lemmas (C5) -/

theorem pingDevice_fail_low (b : Bool) (n : Nat) (hn : n + 1 < 5) :
    pingDevice ⟨b, n⟩ false = (⟨b, n + 1⟩, false) := by
  simp only [pingDevice, FAILURES_BEFORE_OFFLINE, Bool.false_eq_true, if_false]
  split
  · next hc => exact absurd hc.2 (by omega)
  · rfl

theorem pingDevice_fail_high (n : Nat) (hn : n + 1 ≥ 5) :
    pingDevice ⟨true, n⟩ false = (⟨false, n + 1⟩, true) := by
  simp only [pingDevice, FAILURES_BEFORE_OFFLINE, Bool.false_eq_true, if_false]
  split
  · rfl
  · next hc => exact absurd ⟨trivial, hn⟩ hc

theorem pingDevice_success (s : HealthState) :
    pingDevice s true = (⟨true, 0⟩, !s.online) := by
  cases hs : s.online <;> simp [pingDevice, hs]

theorem pingFailures_upto (k : Nat) (hk : k ≤ 4) :
    pingFailures ⟨true, 0⟩ k = ⟨true, k⟩ := by
  induction k with
  | zero => rfl
  | succ n ih =>
    have hstep := ih (by omega)
    rw [pingFailures] at hstep ⊢
    rw [Function.iterate_succ_apply', hstep,
      pingDevice_fail_low true n (by omega)]

/-- Claim C5: for a tracked device that is online with a zeroed failure
counter, k ≤ 4 consecutive failed health checks leave `online` true, the 5th
consecutive failure sets `online` false, and any successful health check
resets the counter to zero, restores `online`, and fires the state-change
callback exactly when the device was previously offline. -/
theorem C5_offline_threshold (st : HealthState) (k : Nat)
    (h0 : st.online = true) (hf : st.consecutiveFailures = 0) (hk : k ≤ 4) :
    (pingFailures st k).online = true ∧
    (pingFailures st 5).online = false ∧
    ∀ s : HealthState, pingDevice s true = (⟨true, 0⟩, !s.online) := by
  obtain ⟨o, c⟩ := st
  simp only at h0 hf
  subst h0; subst hf
  refine ⟨?_, ?_, fun s => pingDevice_success s⟩
  · rw [pingFailures_upto k hk]
  · have h4 := pingFailures_upto 4 (by omega)
    rw [pingFailures] at h4 ⊢
    rw [show (5 : Nat) = 4 + 1 from rfl, Function.iterate_succ_apply', h4,
      pingDevice_fail_high 4 (by omega)]

/-- Witness for C5 at a freshly discovered device and k = 4. -/
theorem C5_offline_threshold_witness :
    (pingFailures ⟨true, 0⟩ 4).online = true ∧
    (pingFailures ⟨true, 0⟩ 5).online = false ∧
    ∀ s : HealthState, pingDevice s true = (⟨true, 0⟩, !s.online) :=
  C5_offline_threshold ⟨true, 0⟩ 4 rfl rfl (by decide)

/-! ## Route-table lemmas (C6) -/

theorem routeExists_false_iff (routes : List (String × Route))
    (sourceId sinkId : String) :
    routeExists routes sourceId sinkId = false ↔
      ∀ kv ∈ routes,
        ¬(kv.2.source_id = sourceId ∧ kv.2.sink_id = sinkId) := by
  unfold routeExists
  rw [← Bool.not_eq_true, List.any_eq_true]
  constructor
  · intro hno kv hkv hc
    exact hno ⟨kv, hkv, by simp [hc.1, hc.2]⟩
  · rintro hall ⟨kv, hkv, hp⟩
    simp only [decide_eq_true_eq] at hp
    exact hall kv hkv hp

theorem routeTableUnique_set (routes : List (String × Route)) (rid : String)
    (r : Route) (hu : routeTableUnique routes)
    (hkeys : (routes.map (·.1)).Nodup)
    (hnew : routeExists routes r.source_id r.sink_id = false) :
    routeTableUnique (pyDictSet routes rid r) := by
  have hmem := (routeExists_false_iff routes r.source_id r.sink_id).mp hnew
  unfold pyDictSet
  split
  · rw [routeTableUnique, List.pairwise_map]
    refine hu.imp_of_mem ?_
    intro a b ha hb hr
    by_cases ha1 : a.1 = rid <;> by_cases hb1 : b.1 = rid
    · have hab : a = b :=
        List.inj_on_of_nodup_map hkeys ha hb (by rw [ha1, hb1])
      subst hab
      exact absurd ⟨rfl, rfl⟩ hr
    · simp only [if_pos ha1, if_neg hb1]
      intro hc
      exact hmem b hb ⟨hc.1.symm, hc.2.symm⟩
    · simp only [if_neg ha1, if_pos hb1]
      intro hc
      exact hmem a ha hc
    · simp only [if_neg ha1, if_neg hb1]
      exact hr
  · rw [routeTableUnique, List.pairwise_append]
    refine ⟨hu, List.pairwise_singleton _ _, ?_⟩
    intro a ha b hb
    simp only [List.mem_singleton] at hb
    subst hb
    exact hmem a ha

/-- Claim C6: `create_route` inserts a new route only when no existing route
has the same `(source_id, sink_id)` pair; when such a route exists it returns
the already-exists signal `none` and leaves the route table unchanged, so the
table keeps at most one route per pair. -/
theorem C6_route_uniqueness (routes : List (String × Route))
    (routeId name sourceId sinkId : String) (mode : RouteMode)
    (transform : RouteTransform) (enabled : Bool)
    (hu : routeTableUnique routes)
    (hkeys : (routes.map (·.1)).Nodup) :
    (routeExists routes sourceId sinkId = true →
      createRoute routes routeId name sourceId sinkId mode transform enabled
        = (routes, none)) ∧
    (routeExists routes sourceId sinkId = false →
      (createRoute routes routeId name sourceId sinkId mode transform
          enabled).2
        = some ⟨routeId, name, sourceId, sinkId, enabled, mode, transform,
            .DISCONNECTED⟩) ∧
    routeTableUnique
      (createRoute routes routeId name sourceId sinkId mode transform
        enabled).1 := by
  refine ⟨fun hex => ?_, fun hnone => ?_, ?_⟩
  · unfold createRoute
    rw [if_pos hex]
  · unfold createRoute
    rw [if_neg (by simp [hnone])]
  · unfold createRoute
    by_cases hex : routeExists routes sourceId sinkId = true
    · rw [if_pos hex]
      exact hu
    · rw [if_neg hex]
      exact routeTableUnique_set routes routeId _ hu hkeys
        (Bool.eq_false_iff.mpr hex)

/-- Witness for C6: a table holding one route, then a duplicate-pair create
and a fresh create. -/
theorem C6_route_uniqueness_witness :
    ((routeExists [("r1", ⟨"r1", "first", "srcA", "snkA", true, .PROXY, {},
        .DISCONNECTED⟩)] "srcA" "snkA" = true →
      createRoute [("r1", ⟨"r1", "first", "srcA", "snkA", true, .PROXY, {},
          .DISCONNECTED⟩)] "r2" "second" "srcA" "snkA" .PROXY {} true
        = ([("r1", ⟨"r1", "first", "srcA", "snkA", true, .PROXY, {},
            .DISCONNECTED⟩)], none)) ∧
    (routeExists [("r1", ⟨"r1", "first", "srcA", "snkA", true, .PROXY, {},
        .DISCONNECTED⟩)] "srcA" "snkA" = false →
      (createRoute [("r1", ⟨"r1", "first", "srcA", "snkA", true, .PROXY, {},
          .DISCONNECTED⟩)] "r2" "second" "srcA" "snkA" .PROXY {} true).2
        = some ⟨"r2", "second", "srcA", "snkA", true, .PROXY, {},
            .DISCONNECTED⟩) ∧
    routeTableUnique
      (createRoute [("r1", ⟨"r1", "first", "srcA", "snkA", true, .PROXY, {},
          .DISCONNECTED⟩)] "r2" "second" "srcA" "snkA" .PROXY {} true).1) :=
  C6_route_uniqueness [("r1", ⟨"r1", "first", "srcA", "snkA", true, .PROXY, {},
      .DISCONNECTED⟩)] "r2" "second" "srcA" "snkA" .PROXY {} true
    (by simp [routeTableUnique]) (by simp)

/-! ## mDNS removal handling (C8) -/

/-- Counterexample to claim C8: handling an mDNS ServiceRemoved event for a
known online source by itself flips the device's `online` flag to false (and
fires the change callback), contrary to the claim that removal events never
change the flag. -/
theorem C8_counterexample :
    pyDictGet [("src-1", DeviceRecord.mk true 0 0)] "src-1"
        = some (DeviceRecord.mk true 0 0) ∧
    (handleDeviceEvent [("src-1", DeviceRecord.mk true 0 0)] "src-1" false 1).1
        = [("src-1", DeviceRecord.mk false 0 0)] ∧
    (handleDeviceEvent [("src-1", DeviceRecord.mk true 0 0)] "src-1" false 1).2
        = some ("src-1", false) := by
  refine ⟨rfl, rfl, rfl⟩

/-- Claim C8 (amended): handling an mDNS ServiceRemoved event for a known
device immediately sets the device's `online` flag to false and invokes the
state-change callback with `is_added = false`, leaving every other device
untouched; the health checker's consecutive-failure threshold is an
additional, independent path to offline, not the only one. -/
theorem C8_removal_marks_offline (devices : List (String × DeviceRecord))
    (key : String) (now : Nat) (st : DeviceRecord)
    (h : pyDictGet devices key = some st) :
    pyDictGet (handleDeviceEvent devices key false now).1 key
        = some { st with online := false } ∧
    (handleDeviceEvent devices key false now).2 = some (key, false) ∧
    ∀ k2, k2 ≠ key →
      pyDictGet (handleDeviceEvent devices key false now).1 k2
        = pyDictGet devices k2 := by
  have e1 : handleDeviceEvent devices key false now =
      (pyDictSet devices key { st with online := false }, some (key, false)) := by
    unfold handleDeviceEvent
    rw [if_neg (by simp), h]
  refine ⟨?_, ?_, fun k2 hk2 => ?_⟩
  · rw [e1]
    exact pyDictGet_pyDictSet_self devices key _
  · rw [e1]
  · rw [e1]
    exact pyDictGet_pyDictSet_ne devices key k2 _ hk2

/-- Witness for C8 (amended) at a two-device map. -/
theorem C8_removal_marks_offline_witness :
    pyDictGet (handleDeviceEvent
        [("a", DeviceRecord.mk true 0 0), ("b", DeviceRecord.mk true 0 0)]
        "a" false 7).1 "a" = some (DeviceRecord.mk false 0 0) ∧
    (handleDeviceEvent
        [("a", DeviceRecord.mk true 0 0), ("b", DeviceRecord.mk true 0 0)]
        "a" false 7).2 = some ("a", false) ∧
    ∀ k2, k2 ≠ "a" →
      pyDictGet (handleDeviceEvent
        [("a", DeviceRecord.mk true 0 0), ("b", DeviceRecord.mk true 0 0)]
        "a" false 7).1 k2
        = pyDictGet [("a", DeviceRecord.mk true 0 0),
            ("b", DeviceRecord.mk true 0 0)] k2 :=
  C8_removal_marks_offline
    [("a", DeviceRecord.mk true 0 0), ("b", DeviceRecord.mk true 0 0)]
    "a" 7 (DeviceRecord.mk true 0 0) rfl

/-! ## Control registry lemmas (C9, C10) -/

theorem Control.value_withValue_of_validate (c : Control) (v val : PyValue)
    (h : c.validateValue v = .ok val) : (c.withValue val).value = val := by
  cases c with
  | boolean cc v0 =>
    simp only [Control.validateValue] at h
    cases hv : validateBoolean v <;> rw [hv] at h <;>
      simp only [Except.map] at h
    · cases h
    · cases h
      rfl
  | number cc v0 mn mx st u =>
    simp only [Control.validateValue] at h
    cases hv : validateNumber mn mx v <;> rw [hv] at h <;>
      simp only [Except.map] at h
    · cases h
    · cases h
      rfl
  | string cc v0 a b =>
    simp only [Control.validateValue] at h
    cases hv : validateString a b v <;> rw [hv] at h <;>
      simp only [Except.map] at h
    · cases h
    · cases h
      rfl
  | enum cc v0 o =>
    simp only [Control.validateValue] at h
    cases hv : validateEnum o v <;> rw [hv] at h <;>
      simp only [Except.map] at h
    · cases h
    · cases h
      rfl
  | color cc v0 a =>
    simp only [Control.validateValue] at h
    cases hv : validateColor a v <;> rw [hv] at h <;>
      simp only [Except.map] at h
    · cases h
    · cases h
      rfl

theorem setValue_eq_of_get (r : ControlRegistry) (cid : String) (c : Control)
    (h : pyDictGet r.controls cid = some c) (v : PyValue) :
    r.setValue cid v =
      if c.readonly then
        (r, [], .error (.validationError "Control is read-only"))
      else
        match c.validateValue v with
        | .error m => (r, [], .error (.validationError m))
        | .ok validated =>
          ({ controls := pyDictSet r.controls cid (c.withValue validated),
             callbacks := r.callbacks },
           ((pyDictGet r.callbacks cid).getD []).map
             (fun cb => ChangeEvent.mk cb cid c.value validated),
           .ok validated) := by
  unfold ControlRegistry.setValue
  rw [h]

/-- Claim C10 (implicit): `set_value` is atomic and disciplined about
observers.  Whenever it fails — unknown id, readonly control, or failed
validation — the registry is completely unchanged and no `on_change` callback
fires.  Whenever it succeeds, the stored control is the old control with its
value replaced by the validated value (the value read back is the new one),
the callback registrations are untouched, and every callback registered for
the id fires exactly once, in registration order, with
`(control_id, old_value, validated_value)`. -/
theorem C10_setValue_atomic_observers (r : ControlRegistry) (cid : String)
    (v : PyValue) :
    (∀ e, (r.setValue cid v).2.2 = .error e →
      (r.setValue cid v).1 = r ∧ (r.setValue cid v).2.1 = []) ∧
    (∀ val, (r.setValue cid v).2.2 = .ok val →
      ∃ control, pyDictGet r.controls cid = some control ∧
        control.readonly = false ∧
        control.validateValue v = .ok val ∧
        (r.setValue cid v).1.controls
          = pyDictSet r.controls cid (control.withValue val) ∧
        pyDictGet (r.setValue cid v).1.controls cid
          = some (control.withValue val) ∧
        (control.withValue val).value = val ∧
        (r.setValue cid v).1.callbacks = r.callbacks ∧
        (r.setValue cid v).2.1
          = ((pyDictGet r.callbacks cid).getD []).map
              (fun cb => ChangeEvent.mk cb cid control.value val)) := by
  unfold ControlRegistry.setValue
  split
  · refine ⟨fun e _ => ⟨rfl, rfl⟩, fun val hval => ?_⟩
    cases hval
  · next control hc =>
    split
    · refine ⟨fun e _ => ⟨rfl, rfl⟩, fun val hval => ?_⟩
      cases hval
    · next hro =>
      split
      · refine ⟨fun e _ => ⟨rfl, rfl⟩, fun val hval => ?_⟩
        cases hval
      · next validated hv =>
        refine ⟨fun e he => ?_, fun val hval => ?_⟩
        · cases he
        · cases hval
          refine ⟨control, hc, Bool.eq_false_iff.mpr hro, hv, rfl, ?_,
            Control.value_withValue_of_validate control v _ hv, rfl, rfl⟩
          exact pyDictGet_pyDictSet_self r.controls cid _

/-- Witness for C10: a failed set on the sink's registry (brightness above
its maximum) leaves the registry unchanged and fires no callback. -/
theorem C10_setValue_atomic_observers_witness :
    (sinkInitialControls.setValue "brightness" (.num 300)).1
        = sinkInitialControls ∧
    (sinkInitialControls.setValue "brightness" (.num 300)).2.1 = [] :=
  (C10_setValue_atomic_observers sinkInitialControls "brightness"
      (.num 300)).1
    (.validationError "Value exceeds maximum") (by rfl)

/-- Counterexample to claim C9: `set_value` on a readonly control raises a
`ControlValidationError`, which `set_values` reports as error code 6
(INVALID_VALUE) — not as READONLY (code 7) as the claim states; no READONLY
code is ever produced. -/
theorem C9_counterexample :
    ((ControlRegistry.mk
        [("locked", .number ⟨"locked", "Locked", "", true, "general"⟩ 0
          (some 0) (some 10) 1 "")] []).setValues
      [("locked", .num 5)]).2.2.2 = [("locked", 6, "Control is read-only")] ∧
    (6 : Nat) ≠ ErrorCode.READONLY.code :=
  ⟨rfl, by decide⟩

/-- Claim C9 (amended): for every registered NumberControl with min 0 and
max 10 that is not readonly, `set_value` with 5 succeeds returning 5.0, with
-1 or 11 fails with a validation error that `set_values` reports as error
code 6 (INVALID_VALUE), with the string "5" succeeds returning 5.0, and with
the string "abc" fails; `set_value` on any readonly control fails with
`ControlValidationError("Control is read-only")`, which `set_values` reports
as error code 6 rather than READONLY (7). -/
theorem C9_number_control_validation (r : ControlRegistry) (cid : String)
    (cc : ControlCommon) (v0 step : ℚ) (unit : String)
    (hro : cc.readonly = false)
    (h : pyDictGet r.controls cid
      = some (.number cc v0 (some 0) (some 10) step unit)) :
    ((r.setValue cid (.num 5)).2.2 = .ok (.num 5)) ∧
    ((r.setValue cid (.num (-1))).2.2
      = .error (.validationError "Value is below minimum")) ∧
    ((r.setValue cid (.num 11)).2.2
      = .error (.validationError "Value exceeds maximum")) ∧
    ((r.setValues [(cid, .num (-1))]).2.2.2
      = [(cid, 6, "Value is below minimum")]) ∧
    ((r.setValues [(cid, .num 11)]).2.2.2
      = [(cid, 6, "Value exceeds maximum")]) ∧
    ((r.setValue cid (.str "5")).2.2 = .ok (.num 5)) ∧
    ((r.setValue cid (.str "abc")).2.2
      = .error (.validationError "Cannot convert to number")) ∧
    (∀ (r2 : ControlRegistry) (cid2 : String) (c2 : Control) (v : PyValue),
      pyDictGet r2.controls cid2 = some c2 → c2.readonly = true →
      (r2.setValue cid2 v).2.2
        = .error (.validationError "Control is read-only") ∧
      (r2.setValues [(cid2, v)]).2.2.2
        = [(cid2, 6, "Control is read-only")]) := by
  have hronc :
      ¬((Control.number cc v0 (some 0) (some 10) step unit).readonly = true) := by
    simp [Control.readonly, Control.common, hro]
  have hval5 : (Control.number cc v0 (some 0) (some 10) step unit).validateValue
      (.num 5) = .ok (.num 5) := by rfl
  have hvalm1 : (Control.number cc v0 (some 0) (some 10) step unit).validateValue
      (.num (-1)) = .error "Value is below minimum" := by rfl
  have hval11 : (Control.number cc v0 (some 0) (some 10) step unit).validateValue
      (.num 11) = .error "Value exceeds maximum" := by rfl
  have hvalS5 : (Control.number cc v0 (some 0) (some 10) step unit).validateValue
      (.str "5") = .ok (.num 5) := by rfl
  have hvalAbc : (Control.number cc v0 (some 0) (some 10) step unit).validateValue
      (.str "abc") = .error "Cannot convert to number" := by rfl
  have em1 : r.setValue cid (.num (-1))
      = (r, [], .error (.validationError "Value is below minimum")) := by
    rw [setValue_eq_of_get r cid _ h _, if_neg hronc, hvalm1]
  have e11 : r.setValue cid (.num 11)
      = (r, [], .error (.validationError "Value exceeds maximum")) := by
    rw [setValue_eq_of_get r cid _ h _, if_neg hronc, hval11]
  refine ⟨?_, ?_, ?_, ?_, ?_, ?_, ?_, ?_⟩
  · rw [setValue_eq_of_get r cid _ h _, if_neg hronc, hval5]
  · rw [em1]
  · rw [e11]
  · simp only [ControlRegistry.setValues, List.foldl_cons, List.foldl_nil, em1,
      List.nil_append]
  · simp only [ControlRegistry.setValues, List.foldl_cons, List.foldl_nil, e11,
      List.nil_append]
  · rw [setValue_eq_of_get r cid _ h _, if_neg hronc, hvalS5]
  · rw [setValue_eq_of_get r cid _ h _, if_neg hronc, hvalAbc]
  · intro r2 cid2 c2 v hget hro2
    have ero : r2.setValue cid2 v
        = (r2, [], .error (.validationError "Control is read-only")) := by
      rw [setValue_eq_of_get r2 cid2 c2 hget v, if_pos hro2]
    refine ⟨by rw [ero], ?_⟩
    simp only [ControlRegistry.setValues, List.foldl_cons, List.foldl_nil, ero,
      List.nil_append]

/-- Witness for C9 (amended) at a concrete one-control registry. -/
theorem C9_number_control_validation_witness :
    (((ControlRegistry.mk [("level", .number
        ⟨"level", "Level", "", false, "general"⟩ 0 (some 0) (some 10) 1 "")]
        []).setValue "level" (.num 5)).2.2 = .ok (.num 5)) ∧
    (((ControlRegistry.mk [("level", .number
        ⟨"level", "Level", "", false, "general"⟩ 0 (some 0) (some 10) 1 "")]
        []).setValue "level" (.num (-1))).2.2
      = .error (.validationError "Value is below minimum")) ∧
    (((ControlRegistry.mk [("level", .number
        ⟨"level", "Level", "", false, "general"⟩ 0 (some 0) (some 10) 1 "")]
        []).setValue "level" (.num 11)).2.2
      = .error (.validationError "Value exceeds maximum")) ∧
    (((ControlRegistry.mk [("level", .number
        ⟨"level", "Level", "", false, "general"⟩ 0 (some 0) (some 10) 1 "")]
        []).setValues [("level", .num (-1))]).2.2.2
      = [("level", 6, "Value is below minimum")]) ∧
    (((ControlRegistry.mk [("level", .number
        ⟨"level", "Level", "", false, "general"⟩ 0 (some 0) (some 10) 1 "")]
        []).setValues [("level", .num 11)]).2.2.2
      = [("level", 6, "Value exceeds maximum")]) ∧
    (((ControlRegistry.mk [("level", .number
        ⟨"level", "Level", "", false, "general"⟩ 0 (some 0) (some 10) 1 "")]
        []).setValue "level" (.str "5")).2.2 = .ok (.num 5)) ∧
    (((ControlRegistry.mk [("level", .number
        ⟨"level", "Level", "", false, "general"⟩ 0 (some 0) (some 10) 1 "")]
        []).setValue "level" (.str "abc")).2.2
      = .error (.validationError "Cannot convert to number")) ∧
    (∀ (r2 : ControlRegistry) (cid2 : String) (c2 : Control) (v : PyValue),
      pyDictGet r2.controls cid2 = some c2 → c2.readonly = true →
      (r2.setValue cid2 v).2.2
        = .error (.validationError "Control is read-only") ∧
      (r2.setValues [(cid2, v)]).2.2.2
        = [(cid2, 6, "Control is read-only")]) :=
  C9_number_control_validation
    (ControlRegistry.mk [("level", .number
      ⟨"level", "Level", "", false, "general"⟩ 0 (some 0) (some 10) 1 "")] [])
    "level" ⟨"level", "Level", "", false, "general"⟩ 0 1 "" rfl rfl

/-! ## Subscribe data flow (C3) -/

/-- Claim C3 counter-evidence (code bug): the `subscribe` helper builds a
message with only `type`, `seq` and `target` keys — no callback host or port
— and `Source._handle_subscribe` answers `ok` but records the new stream
with no `DataSender` and not active, so the render loop's send stage emits to
exactly the same targets as before: no frames ever flow to the subscriber. -/
theorem C3_subscribe_starts_no_dataflow (m : StreamManager) (fmt : ColorFormat)
    (dims : List Nat) (rate : Nat) (msg : SubscribeRequestData)
    (hfresh : m.streams.any (fun kv => kv.1 = streamName (m.nextId + 1))
      = false) :
    (sourceHandleSubscribe m fmt dims rate msg).2.status = "ok" ∧
    (sourceHandleSubscribe m fmt dims rate msg).2.streamId
      = streamName (m.nextId + 1) ∧
    pyDictGet (sourceHandleSubscribe m fmt dims rate msg).1.streams
        (streamName (m.nextId + 1))
      = some ⟨none, false, fmt, .RAW, false, 0, 0⟩ ∧
    renderLoopSendTargets (sourceHandleSubscribe m fmt dims rate msg).1
      = renderLoopSendTargets m ∧
    (∀ seq color, (subscribeMsgDict seq dims color rate).map (·.1)
      = ["type", "seq", "target"]) := by
  refine ⟨rfl, rfl, ?_, ?_, fun seq color => rfl⟩
  · exact pyDictGet_pyDictSet_self m.streams _ _
  · show renderLoopSendTargets
      ⟨pyDictSet m.streams (streamName (m.nextId + 1))
        ⟨none, false, fmt, .RAW, false, 0, 0⟩, m.nextId + 1⟩
      = renderLoopSendTargets m
    unfold pyDictSet
    rw [if_neg (by rw [hfresh]; exact Bool.false_ne_true)]
    unfold renderLoopSendTargets
    rw [List.filter_append]
    simp

/-- Witness for C3 at a fresh source (empty stream manager) receiving a
subscribe request that carries a callback address. -/
theorem C3_subscribe_starts_no_dataflow_witness :
    (sourceHandleSubscribe ⟨[], 0⟩ .RGB [60] 30
        ⟨[60], "rgb", 30, some "10.0.0.1", some 5000⟩).2.status = "ok" ∧
    (sourceHandleSubscribe ⟨[], 0⟩ .RGB [60] 30
        ⟨[60], "rgb", 30, some "10.0.0.1", some 5000⟩).2.streamId
      = streamName 1 ∧
    pyDictGet (sourceHandleSubscribe ⟨[], 0⟩ .RGB [60] 30
        ⟨[60], "rgb", 30, some "10.0.0.1", some 5000⟩).1.streams
        (streamName 1)
      = some ⟨none, false, .RGB, .RAW, false, 0, 0⟩ ∧
    renderLoopSendTargets (sourceHandleSubscribe ⟨[], 0⟩ .RGB [60] 30
        ⟨[60], "rgb", 30, some "10.0.0.1", some 5000⟩).1
      = renderLoopSendTargets ⟨[], 0⟩ ∧
    (∀ seq color, (subscribeMsgDict seq [60] color 30).map (·.1)
      = ["type", "seq", "target"]) :=
  C3_subscribe_starts_no_dataflow ⟨[], 0⟩ .RGB [60] 30
    ⟨[60], "rgb", 30, some "10.0.0.1", some 5000⟩ rfl

/-! ## Sink data handling (C4) -/

/-- Claim C4 counter-evidence (code bug): with no stream active (the stream
manager in any state with no active streams, e.g. after a stop — and the
sink does not even dispatch STREAM_CONTROL), an arriving data packet is not
dropped: `_handle_data_packet` overwrites the pixel-buffer prefix and always
hands a frame to the renderer. -/
theorem C4_sink_renders_without_stream (st : SinkState) (packet : DataPacket)
    (hcontrols : st.controls = sinkInitialControls)
    (hinactive : st.streamManager.activeStreams = [])
    (hlen : packet.pixel_data.length ≤ st.pixelBuffer.length) :
    sinkHandleDataPacket st true packet
      = some ({ st with pixelBuffer :=
            packet.pixel_data ++ st.pixelBuffer.drop packet.pixel_data.length },
          some (applyBrightness
            (packet.pixel_data ++ st.pixelBuffer.drop packet.pixel_data.length)
            1)) ∧
    sinkHandlesMessageType .STREAM_CONTROL = false := by
  refine ⟨?_, rfl⟩
  have h255 : (255 : ℚ) / 255 = 1 := by norm_num
  have hb : pyDictGet sinkInitialControls.controls "brightness"
      = some (.number ⟨"brightness", "Global Brightness",
        "Master brightness applied to display", false, "output"⟩ 255 (some 0)
        (some 255) 1 "") := rfl
  have ht : pyDictGet sinkInitialControls.controls "test_mode"
      = some (.boolean ⟨"test_mode", "Test Mode",
        "Display test pattern instead of input", false, "general"⟩ false) := rfl
  unfold sinkHandleDataPacket
  rw [hcontrols]
  simp [hb, ht, Control.value, pyTruthy, if_pos hlen, h255]

/-- Witness for C4: a sink with 3 black pixels, no streams at all, receiving
one raw data packet: the packet is rendered and the buffer overwritten. -/
theorem C4_sink_renders_without_stream_witness :
    sinkHandleDataPacket
        ⟨⟨[], 0⟩, [[0, 0, 0], [0, 0, 0], [0, 0, 0]], sinkInitialControls⟩ true
        ⟨1, .RGB, .RAW, 0, [[10, 20, 30], [40, 50, 60], [70, 80, 90]]⟩
      = some (⟨⟨[], 0⟩, [[10, 20, 30], [40, 50, 60], [70, 80, 90]],
            sinkInitialControls⟩,
          some (applyBrightness [[10, 20, 30], [40, 50, 60], [70, 80, 90]] 1)) ∧
    sinkHandlesMessageType .STREAM_CONTROL = false :=
  C4_sink_renders_without_stream
    ⟨⟨[], 0⟩, [[0, 0, 0], [0, 0, 0], [0, 0, 0]], sinkInitialControls⟩
    ⟨1, .RGB, .RAW, 0, [[10, 20, 30], [40, 50, 60], [70, 80, 90]]⟩
    rfl rfl (by decide)

/-! ## Topology mapping lemmas (C7) -/

theorem mem_baseSeq (n : Nat) (rev : Bool) (x : Nat) :
    x ∈ baseSeq n rev ↔ x < n := by
  unfold baseSeq
  split <;> simp

theorem nodup_baseSeq (n : Nat) (rev : Bool) : (baseSeq n rev).Nodup := by
  unfold baseSeq
  split
  · exact List.nodup_reverse.mpr (List.nodup_range n)
  · exact List.nodup_range n

theorem length_baseSeq (n : Nat) (rev : Bool) : (baseSeq n rev).length = n := by
  unfold baseSeq
  split <;> simp

theorem mem_serpCols (base : List Nat) (w : Nat) (s : Bool) (i x : Nat)
    (hbase : ∀ y, y ∈ base ↔ y < w) :
    (x ∈ if s && i % 2 == 1 then base.reverse else base) ↔ x < w := by
  split
  · rw [List.mem_reverse]
    exact hbase x
  · exact hbase x

theorem nodup_serpCols (base : List Nat) (s : Bool) (i : Nat)
    (hbase : base.Nodup) :
    (if s && i % 2 == 1 then base.reverse else base).Nodup := by
  split
  · exact List.nodup_reverse.mpr hbase
  · exact hbase

theorem length_serpCols (base : List Nat) (s : Bool) (i : Nat) :
    (if s && i % 2 == 1 then base.reverse else base).length = base.length := by
  split <;> simp

theorem mem_enumFlat {n m : Nat} (outer : List Nat) (inner : Nat → List Nat)
    (emit : Nat → Nat → Nat × Nat)
    (hOuterMem : ∀ x, x ∈ outer ↔ x < n)
    (hInnerMem : ∀ i x, x ∈ inner i ↔ x < m)
    (p : Nat × Nat) :
    (p ∈ outer.enum.flatMap fun ia => (inner ia.1).map fun b => emit ia.2 b) ↔
      ∃ a b, a < n ∧ b < m ∧ emit a b = p := by
  rw [List.mem_flatMap]
  constructor
  · rintro ⟨ia, hia, hp⟩
    rw [List.mem_map] at hp
    obtain ⟨b, hb, rfl⟩ := hp
    refine ⟨ia.2, b, ?_, (hInnerMem ia.1 b).mp hb, rfl⟩
    have hmem : ia.2 ∈ outer := by
      obtain ⟨i, a⟩ := ia
      rw [List.mk_mem_enum_iff_get?] at hia
      exact List.get?_mem hia
    exact (hOuterMem _).mp hmem
  · rintro ⟨a, b, ha, hb, rfl⟩
    have hmem : a ∈ outer := (hOuterMem a).mpr ha
    rw [List.mem_iff_get?] at hmem
    obtain ⟨i, hi⟩ := hmem
    refine ⟨(i, a), ?_, ?_⟩
    · rw [List.mk_mem_enum_iff_get?]
      exact hi
    · rw [List.mem_map]
      exact ⟨b, (hInnerMem i b).mpr hb, rfl⟩

theorem nodup_enumFlat (outer : List Nat) (inner : Nat → List Nat)
    (emit : Nat → Nat → Nat × Nat)
    (hemit : ∀ a b a2 b2, emit a b = emit a2 b2 → a = a2 ∧ b = b2)
    (hOuterNodup : outer.Nodup)
    (hInnerNodup : ∀ i, (inner i).Nodup) :
    (outer.enum.flatMap fun ia => (inner ia.1).map fun b => emit ia.2 b).Nodup := by
  rw [List.nodup_flatMap]
  constructor
  · intro ia _
    exact (hInnerNodup ia.1).map fun _ _ hb => (hemit _ _ _ _ hb).2
  · have hsnd : outer.enum.Pairwise fun a b => a.2 ≠ b.2 := by
      have h2 : (outer.enum.map Prod.snd).Nodup := by
        rw [List.enum_map_snd]
        exact hOuterNodup
      unfold List.Nodup at h2
      rw [List.pairwise_map] at h2
      exact h2
    refine hsnd.imp ?_
    intro a b hne x hx hx2
    rw [List.mem_map] at hx hx2
    obtain ⟨b1, _, rfl⟩ := hx
    obtain ⟨b2, _, heq⟩ := hx2
    exact hne (hemit _ _ _ _ heq.symm).1

theorem length_enumFlat {m : Nat} (outer : List Nat) (inner : Nat → List Nat)
    (emit : Nat → Nat → Nat × Nat)
    (hInnerLen : ∀ i, (inner i).length = m) :
    (outer.enum.flatMap fun ia => (inner ia.1).map fun b => emit ia.2 b).length
      = outer.length * m := by
  rw [List.length_flatMap]
  have hsum : ∀ es : List (Nat × Nat),
      (es.map fun ia => ((inner ia.1).map fun b => emit ia.2 b).length).sum
        = es.length * m := by
    intro es
    induction es with
    | nil => simp
    | cons e es ih =>
      rw [List.map_cons, List.sum_cons, List.length_map, hInnerLen, ih,
        List.length_cons]
      ring
  have h2 := hsum outer.enum
  rw [List.enum_length] at h2
  exact h2

theorem mem_buildMatrixMapping (t : MatrixTopology) (p : Nat × Nat) :
    p ∈ buildMatrixMapping t ↔ p.1 < t.width ∧ p.2 < t.height := by
  obtain ⟨W, H, o, ord, s⟩ := t
  obtain ⟨c, r⟩ := p
  cases ord
  · have hmm := mem_enumFlat (n := H) (m := W) (baseSeq H o.isBottom)
      (fun i => if s && i % 2 == 1 then (baseSeq W o.isRight).reverse
        else baseSeq W o.isRight)
      (fun a b => (b, a))
      (fun x => mem_baseSeq H o.isBottom x)
      (fun i x => mem_serpCols (baseSeq W o.isRight) W s i x
        (fun y => mem_baseSeq W o.isRight y))
      (c, r)
    refine hmm.trans ?_
    constructor
    · rintro ⟨a, b, ha, hb, heq⟩
      cases heq
      exact ⟨hb, ha⟩
    · rintro ⟨h1, h2⟩
      exact ⟨r, c, h2, h1, rfl⟩
  · have hmm := mem_enumFlat (n := W) (m := H) (baseSeq W o.isRight)
      (fun i => if s && i % 2 == 1 then (baseSeq H o.isBottom).reverse
        else baseSeq H o.isBottom)
      (fun a b => (a, b))
      (fun x => mem_baseSeq W o.isRight x)
      (fun i x => mem_serpCols (baseSeq H o.isBottom) H s i x
        (fun y => mem_baseSeq H o.isBottom y))
      (c, r)
    refine hmm.trans ?_
    constructor
    · rintro ⟨a, b, ha, hb, heq⟩
      cases heq
      exact ⟨ha, hb⟩
    · rintro ⟨h1, h2⟩
      exact ⟨c, r, h1, h2, rfl⟩

theorem nodup_buildMatrixMapping (t : MatrixTopology) :
    (buildMatrixMapping t).Nodup := by
  obtain ⟨W, H, o, ord, s⟩ := t
  cases ord
  · exact nodup_enumFlat (baseSeq H o.isBottom)
      (fun i => if s && i % 2 == 1 then (baseSeq W o.isRight).reverse
        else baseSeq W o.isRight)
      (fun a b => (b, a))
      (fun a b a2 b2 h => by
        injection h with h1 h2
        exact ⟨h2, h1⟩)
      (nodup_baseSeq H o.isBottom)
      (fun i => nodup_serpCols (baseSeq W o.isRight) s i
        (nodup_baseSeq W o.isRight))
  · exact nodup_enumFlat (baseSeq W o.isRight)
      (fun i => if s && i % 2 == 1 then (baseSeq H o.isBottom).reverse
        else baseSeq H o.isBottom)
      (fun a b => (a, b))
      (fun a b a2 b2 h => by
        injection h with h1 h2
        exact ⟨h1, h2⟩)
      (nodup_baseSeq W o.isRight)
      (fun i => nodup_serpCols (baseSeq H o.isBottom) s i
        (nodup_baseSeq H o.isBottom))

theorem length_buildMatrixMapping (t : MatrixTopology) :
    (buildMatrixMapping t).length = t.width * t.height := by
  obtain ⟨W, H, o, ord, s⟩ := t
  cases ord
  · have hl := length_enumFlat (m := W) (baseSeq H o.isBottom)
      (fun i => if s && i % 2 == 1 then (baseSeq W o.isRight).reverse
        else baseSeq W o.isRight)
      (fun a b => (b, a))
      (fun i => by
        rw [length_serpCols, length_baseSeq])
    rw [length_baseSeq] at hl
    rw [show (buildMatrixMapping ⟨W, H, o, .ROW_MAJOR, s⟩).length
        = H * W from hl]
    ring
  · have hl := length_enumFlat (m := H) (baseSeq W o.isRight)
      (fun i => if s && i % 2 == 1 then (baseSeq H o.isBottom).reverse
        else baseSeq H o.isBottom)
      (fun a b => (a, b))
      (fun i => by
        rw [length_serpCols, length_baseSeq])
    rw [length_baseSeq] at hl
    exact hl

theorem foldl_pyDictSet_fresh (es : List (Nat × (Nat × Nat)))
    (d0 : List ((Nat × Nat) × Nat))
    (hnodup : (es.map (·.2)).Nodup)
    (hfresh : ∀ e ∈ es, d0.any (fun kv => kv.1 = e.2) = false) :
    es.foldl (fun d iv => pyDictSet d iv.2 iv.1) d0
      = d0 ++ es.map (fun iv => (iv.2, iv.1)) := by
  induction es generalizing d0 with
  | nil => simp
  | cons e es ih =>
    have hhead : e.2 ∉ es.map (·.2) := (List.nodup_cons.mp (by simpa using hnodup)).1
    simp only [List.foldl_cons, List.map_cons]
    have h1 : pyDictSet d0 e.2 e.1 = d0 ++ [(e.2, e.1)] := by
      unfold pyDictSet
      rw [if_neg]
      rw [hfresh e (List.mem_cons_self e es)]
      exact Bool.false_ne_true
    rw [h1, ih]
    · rw [List.append_assoc]
      rfl
    · exact (List.nodup_cons.mp (by simpa using hnodup)).2
    · intro e2 he2
      rw [List.any_append, hfresh e2 (List.mem_cons_of_mem e he2)]
      have hne : ¬(e.2 = e2.2) := by
        intro hc
        exact hhead (by rw [hc]; exact List.mem_map_of_mem _ he2)
      simp [hne]

theorem coordToIndexDict_eq (t : MatrixTopology) :
    coordToIndexDict t
      = (buildMatrixMapping t).enum.map (fun iv => (iv.2, iv.1)) := by
  unfold coordToIndexDict
  rw [foldl_pyDictSet_fresh]
  · rw [List.nil_append]
  · rw [List.enum_map_snd]
    exact nodup_buildMatrixMapping t
  · intro e _
    rfl

theorem find?_idx_enumFrom (l : List (Nat × Nat)) (k i : Nat)
    (hk : k ≤ i) (hi : i < k + l.length) :
    (((l.enumFrom k).map fun iv => (iv.2, iv.1)).find? fun kv => kv.2 = i)
      = (l.get? (i - k)).map fun p => (p, i) := by
  induction l generalizing k with
  | nil => simp only [List.length_nil] at hi; omega
  | cons q l ih =>
    by_cases hik : i = k
    · subst hik
      rw [List.enumFrom_cons, List.map_cons,
        List.find?_cons_of_pos _ (by simp)]
      simp
    · have hk1 : k + 1 ≤ i := by omega
      rw [List.enumFrom_cons, List.map_cons,
        List.find?_cons_of_neg _ (by simp; omega)]
      rw [ih (k + 1) hk1 (by simp only [List.length_cons] at hi; omega)]
      have hsub : i - k = (i - (k + 1)) + 1 := by omega
      rw [hsub, List.get?_cons_succ]

theorem find?_idx_enumFrom_ge (l : List (Nat × Nat)) (k i : Nat)
    (hi : k + l.length ≤ i) :
    (((l.enumFrom k).map fun iv => (iv.2, iv.1)).find? fun kv => kv.2 = i)
      = none := by
  induction l generalizing k with
  | nil => rfl
  | cons q l ih =>
    have hik : ¬(k = i) := by
      simp only [List.length_cons] at hi
      omega
    rw [List.enumFrom_cons, List.map_cons,
      List.find?_cons_of_neg _ (by simp [hik])]
    exact ih (k + 1) (by simp only [List.length_cons] at hi; omega)

theorem indexToGrid_eq_get? (t : MatrixTopology) (i : Nat) :
    indexToGrid t i = (buildMatrixMapping t).get? i := by
  unfold indexToGrid
  rw [coordToIndexDict_eq,
    show (buildMatrixMapping t).enum = (buildMatrixMapping t).enumFrom 0
      from rfl]
  by_cases hi : i < (buildMatrixMapping t).length
  · rw [find?_idx_enumFrom _ 0 i (Nat.zero_le i) (by omega), Nat.sub_zero]
    cases hg : (buildMatrixMapping t).get? i <;> simp
  · rw [find?_idx_enumFrom_ge _ 0 i (by omega),
      List.get?_eq_none.mpr (by omega)]
    rfl

theorem find?_key_enumFrom (l : List (Nat × Nat)) (k i : Nat) (p : Nat × Nat)
    (hl : l.Nodup) (hp : l.get? i = some p) :
    (((l.enumFrom k).map fun iv => (iv.2, iv.1)).find? fun kv => kv.1 = p)
      = some (p, k + i) := by
  induction l generalizing k i with
  | nil => simp at hp
  | cons q l ih =>
    cases i with
    | zero =>
      rw [List.get?_cons_zero] at hp
      injection hp with hp
      subst hp
      rw [List.enumFrom_cons, List.map_cons,
        List.find?_cons_of_pos _ (by simp)]
      rfl
    | succ j =>
      rw [List.get?_cons_succ] at hp
      have hql : q ∉ l := (List.nodup_cons.mp hl).1
      have hpl : p ∈ l := List.get?_mem hp
      have hqp : ¬(q = p) := fun hc => hql (hc ▸ hpl)
      rw [List.enumFrom_cons, List.map_cons,
        List.find?_cons_of_neg _ (by simp [hqp])]
      rw [ih (k + 1) j (List.nodup_cons.mp hl).2 hp]
      have harith : k + 1 + j = k + (j + 1) := by omega
      rw [harith]

theorem gridToIndex_of_get? (t : MatrixTopology) (i : Nat) (p : Nat × Nat)
    (hp : (buildMatrixMapping t).get? i = some p) :
    gridToIndex t p.1 p.2 = some i := by
  obtain ⟨c, r⟩ := p
  unfold gridToIndex pyDictGet
  rw [coordToIndexDict_eq,
    show (buildMatrixMapping t).enum = (buildMatrixMapping t).enumFrom 0
      from rfl]
  rw [find?_key_enumFrom _ 0 i (c, r) (nodup_buildMatrixMapping t) hp]
  simp

/-- Claim C7: for every MatrixTopology with width ≥ 1 and height ≥ 1, any
origin, ordering and serpentine flag: every index in [0, W·H) maps through
`index_to_grid` to a grid position inside the W×H grid with
`grid_to_index` inverting it, every grid position is hit by some index in
range (so the image is the full grid), and the mapping is injective. -/
theorem C7_matrix_bijection (t : MatrixTopology)
    (hW : 1 ≤ t.width) (hH : 1 ≤ t.height) :
    (∀ i, i < t.width * t.height →
      ∃ p, indexToGrid t i = some p ∧ p.1 < t.width ∧ p.2 < t.height ∧
        gridToIndex t p.1 p.2 = some i) ∧
    (∀ c r, c < t.width → r < t.height →
      ∃ i, i < t.width * t.height ∧ indexToGrid t i = some (c, r)) ∧
    (∀ i j p, indexToGrid t i = some p → indexToGrid t j = some p →
      i = j) := by
  have hlen := length_buildMatrixMapping t
  have hnd := nodup_buildMatrixMapping t
  refine ⟨?_, ?_, ?_⟩
  · intro i hi
    have hi2 : i < (buildMatrixMapping t).length := by rw [hlen]; exact hi
    obtain ⟨p, hp⟩ : ∃ p, (buildMatrixMapping t).get? i = some p :=
      ⟨_, List.get?_eq_get hi2⟩
    have hm : p ∈ buildMatrixMapping t := List.get?_mem hp
    have hb := (mem_buildMatrixMapping t p).mp hm
    exact ⟨p, by rw [indexToGrid_eq_get? t i, hp], hb.1, hb.2,
      gridToIndex_of_get? t i p hp⟩
  · intro c r hc hr
    have hm : (c, r) ∈ buildMatrixMapping t :=
      (mem_buildMatrixMapping t (c, r)).mpr ⟨hc, hr⟩
    rw [List.mem_iff_get?] at hm
    obtain ⟨i, hi⟩ := hm
    obtain ⟨hilt, -⟩ := List.get?_eq_some.mp hi
    exact ⟨i, by rw [← hlen]; exact hilt,
      by rw [indexToGrid_eq_get? t i, hi]⟩
  · intro i j p hiP hjP
    rw [indexToGrid_eq_get? t i] at hiP
    rw [indexToGrid_eq_get? t j] at hjP
    obtain ⟨hi, hgi⟩ := List.get?_eq_some.mp hiP
    obtain ⟨hj, hgj⟩ := List.get?_eq_some.mp hjP
    have hfin : (⟨i, hi⟩ : Fin (buildMatrixMapping t).length) = ⟨j, hj⟩ :=
      (hnd.get_inj_iff).mp (by rw [hgi, hgj])
    exact congrArg Fin.val hfin

/-- Witness for C7 at a 3×2 serpentine column-major bottom-right matrix. -/
theorem C7_matrix_bijection_witness :
    (∀ i, i < 3 * 2 →
      ∃ p, indexToGrid ⟨3, 2, .BOTTOM_RIGHT, .COLUMN_MAJOR, true⟩ i = some p ∧
        p.1 < 3 ∧ p.2 < 2 ∧
        gridToIndex ⟨3, 2, .BOTTOM_RIGHT, .COLUMN_MAJOR, true⟩ p.1 p.2
          = some i) ∧
    (∀ c r, c < 3 → r < 2 →
      ∃ i, i < 3 * 2 ∧
        indexToGrid ⟨3, 2, .BOTTOM_RIGHT, .COLUMN_MAJOR, true⟩ i
          = some (c, r)) ∧
    (∀ i j p, indexToGrid ⟨3, 2, .BOTTOM_RIGHT, .COLUMN_MAJOR, true⟩ i
        = some p →
      indexToGrid ⟨3, 2, .BOTTOM_RIGHT, .COLUMN_MAJOR, true⟩ j = some p →
      i = j) :=
  C7_matrix_bijection ⟨3, 2, .BOTTOM_RIGHT, .COLUMN_MAJOR, true⟩
    (by decide) (by decide)

/-! ## Codec lemmas (C1, C2) -/

theorem colorFormat_ofValue_value (f : ColorFormat) :
    ColorFormat.ofValue f.value = some f := by
  cases f <;> rfl

theorem encoding_ofValue_value (e : Encoding) :
    Encoding.ofValue e.value = some e := by
  cases e <;> rfl

theorem ColorFormat.bytesPerPixel_pos (f : ColorFormat) :
    0 < f.bytesPerPixel := by
  cases f <;> decide

theorem de16_be16 (n : Nat) (h : n < 65536) :
    de16 (n / 256 % 256) (n % 256) = n := by
  unfold de16
  omega

theorem de32_be32 (n : Nat) (h : n < 4294967296) :
    de32 (n / 16777216 % 256) (n / 65536 % 256) (n / 256 % 256) (n % 256)
      = n := by
  unfold de32
  omega

theorem sum_map_length (pd : List (List Nat)) (bpp : Nat)
    (hwf : ∀ px ∈ pd, px.length = bpp) :
    (pd.map List.length).sum = pd.length * bpp := by
  induction pd with
  | nil => simp
  | cons px rest ih =>
    rw [List.map_cons, List.sum_cons, hwf px (List.mem_cons_self px rest),
      ih (fun x hx => hwf x (List.mem_cons_of_mem px hx)), List.length_cons]
    ring

theorem length_encodeRaw (pd : List (List Nat)) (bpp : Nat)
    (hwf : ∀ px ∈ pd, px.length = bpp) :
    (encodeRaw pd).length = pd.length * bpp := by
  unfold encodeRaw
  rw [List.length_map, List.length_flatten, sum_map_length pd bpp hwf]

theorem encodeRaw_eq_flatten (pd : List (List Nat))
    (hb : ∀ px ∈ pd, ∀ b ∈ px, b < 256) :
    encodeRaw pd = pd.flatten := by
  unfold encodeRaw
  have hcong : pd.flatten.map (· % 256) = pd.flatten.map id := by
    refine List.map_congr_left ?_
    intro b hbm
    rw [List.mem_flatten] at hbm
    obtain ⟨px, hpx, hbpx⟩ := hbm
    exact Nat.mod_eq_of_lt (hb px hpx b hbpx)
  rw [hcong, List.map_id]

theorem reshapePixels_append (px : List Nat) (l : List Nat) (n bpp : Nat)
    (hpx : px.length = bpp) :
    reshapePixels (n + 1) bpp (px ++ l) = px :: reshapePixels n bpp l := by
  unfold reshapePixels
  rw [List.range_succ_eq_map, List.map_cons]
  congr 1
  · rw [Nat.zero_mul, List.drop_zero, ← hpx, List.take_left]
  · rw [List.map_map]
    refine List.map_congr_left ?_
    intro i _
    show ((px ++ l).drop (Nat.succ i * bpp)).take bpp
      = (l.drop (i * bpp)).take bpp
    have h1 : Nat.succ i * bpp = px.length + i * bpp := by
      rw [hpx, Nat.succ_mul, Nat.add_comm]
    rw [h1, ← List.drop_drop, List.drop_left]

theorem reshapePixels_flatten (pd : List (List Nat)) (bpp : Nat)
    (hwf : ∀ px ∈ pd, px.length = bpp) :
    reshapePixels pd.length bpp pd.flatten = pd := by
  induction pd with
  | nil => rfl
  | cons px rest ih =>
    rw [List.flatten_cons, List.length_cons,
      reshapePixels_append px rest.flatten rest.length bpp
        (hwf px (List.mem_cons_self px rest)),
      ih (fun x hx => hwf x (List.mem_cons_of_mem px hx))]

theorem decodeRaw_encodeRaw (pd : List (List Nat)) (fmt : ColorFormat)
    (hwf : ∀ px ∈ pd, px.length = fmt.bytesPerPixel)
    (hb : ∀ px ∈ pd, ∀ b ∈ px, b < 256) :
    decodeRaw (encodeRaw pd) fmt pd.length = .ok pd := by
  have hlen := length_encodeRaw pd fmt.bytesPerPixel hwf
  unfold decodeRaw
  rw [if_neg (by omega)]
  rw [encodeRaw_eq_flatten pd hb] at hlen ⊢
  rw [show pd.flatten.take (pd.length * fmt.bytesPerPixel) = pd.flatten from
    by rw [← hlen, List.take_length]]
  rw [reshapePixels_flatten pd fmt.bytesPerPixel hwf]

theorem encodeRle_nil : encodeRle [] = [] := by
  rw [encodeRle]

theorem encodeRle_cons (p : List Nat) (rest : List (List Nat)) :
    encodeRle (p :: rest)
      = (min (runLen p rest) 254 + 1) ::
        (p ++ encodeRle (rest.drop (min (runLen p rest) 254))) := by
  rw [encodeRle]

theorem decodeRleAux_nil (bpp b : Nat) : decodeRleAux [] bpp b = [] := by
  rw [decodeRleAux]

theorem decodeRleAux_cons (c : Nat) (rest : List Nat) (bpp budget : Nat) :
    decodeRleAux (c :: rest) bpp (budget + 1)
      = if rest.length < bpp then []
        else List.replicate (min c (budget + 1)) (rest.take bpp) ++
          decodeRleAux (rest.drop bpp) bpp (budget + 1 - min c (budget + 1)) := by
  rw [decodeRleAux]

theorem runLen_le_length (p : List Nat) (l : List (List Nat)) :
    runLen p l ≤ l.length := by
  induction l with
  | nil => simp [runLen]
  | cons q rest ih =>
    unfold runLen
    split
    · simpa using Nat.succ_le_succ ih
    · simp

theorem take_eq_replicate_of_runLen (p : List Nat) (l : List (List Nat))
    (m : Nat) (hm : m ≤ runLen p l) :
    l.take m = List.replicate m p := by
  induction l generalizing m with
  | nil =>
    have hm0 : m = 0 := by
      have hz : runLen p [] = 0 := rfl
      omega
    subst hm0
    rfl
  | cons q rest ih =>
    cases m with
    | zero => rfl
    | succ m2 =>
      by_cases hq : q = p
      · rw [List.take_succ_cons, List.replicate_succ, hq]
        congr 1
        apply ih
        unfold runLen at hm
        rw [if_pos hq] at hm
        omega
      · unfold runLen at hm
        rw [if_neg hq] at hm
        omega

theorem decodeRleAux_encodeRle (bpp : Nat) :
    ∀ n (pd : List (List Nat)), pd.length = n →
      (∀ px ∈ pd, px.length = bpp) →
      decodeRleAux (encodeRle pd) bpp pd.length = pd := by
  intro n
  induction n using Nat.strong_induction_on with
  | _ n ih =>
    intro pd hn hwf
    cases pd with
    | nil =>
      rw [encodeRle_nil, decodeRleAux_nil]
    | cons px rest =>
      simp only [List.length_cons] at hn
      rw [encodeRle_cons]
      rw [List.length_cons, decodeRleAux_cons]
      have hpx : px.length = bpp := hwf px (List.mem_cons_self px rest)
      have hkle : min (runLen px rest) 254 ≤ rest.length :=
        le_trans (Nat.min_le_left _ _) (runLen_le_length px rest)
      rw [if_neg (by rw [List.length_append, hpx]; omega)]
      rw [show (px ++ encodeRle (rest.drop (min (runLen px rest) 254))).take bpp
          = px from by rw [← hpx, List.take_left]]
      rw [show (px ++ encodeRle (rest.drop (min (runLen px rest) 254))).drop bpp
          = encodeRle (rest.drop (min (runLen px rest) 254)) from
        by rw [← hpx, List.drop_left]]
      rw [Nat.min_eq_left (by omega :
        min (runLen px rest) 254 + 1 ≤ rest.length + 1)]
      rw [show rest.length + 1 - (min (runLen px rest) 254 + 1)
          = (rest.drop (min (runLen px rest) 254)).length from
        by rw [List.length_drop]; omega]
      rw [ih (rest.drop (min (runLen px rest) 254)).length
        (by rw [List.length_drop]; omega)
        (rest.drop (min (runLen px rest) 254))
        rfl
        (fun x hx => hwf x (List.mem_cons_of_mem px (List.mem_of_mem_drop hx)))]
      rw [List.replicate_succ, List.cons_append]
      congr 1
      rw [← take_eq_replicate_of_runLen px rest (min (runLen px rest) 254)
        (Nat.min_le_left _ _)]
      exact List.take_append_drop ..

theorem decodeRleAux_length_le :
    ∀ (n : Nat) (data : List Nat) (bpp budget : Nat), data.length = n →
      (decodeRleAux data bpp budget).length ≤ budget := by
  intro n
  induction n using Nat.strong_induction_on with
  | _ n ih =>
    intro data bpp budget hn
    cases data with
    | nil =>
      rw [decodeRleAux_nil]
      simp
    | cons c rest =>
      cases budget with
      | zero =>
        rw [show decodeRleAux (c :: rest) bpp 0 = [] from by rw [decodeRleAux]]
        simp
      | succ b =>
        rw [decodeRleAux_cons]
        split
        · simp
        · rw [List.length_append, List.length_replicate]
          have hrec := ih (rest.drop bpp).length
            (by rw [List.length_drop, ← hn, List.length_cons]; omega)
            (rest.drop bpp) bpp (b + 1 - min c (b + 1)) rfl
          have hmin : min c (b + 1) ≤ b + 1 := Nat.min_le_right ..
          omega

theorem decodeRle_encodeRle (pd : List (List Nat)) (fmt : ColorFormat)
    (hwf : ∀ px ∈ pd, px.length = fmt.bytesPerPixel) :
    decodeRle (encodeRle pd) fmt pd.length = pd := by
  simp only [decodeRle]
  rw [decodeRleAux_encodeRle fmt.bytesPerPixel pd.length pd rfl hwf,
    Nat.sub_self]
  simp

theorem decodeRle_length (data : List Nat) (fmt : ColorFormat) (n : Nat) :
    (decodeRle data fmt n).length = n := by
  simp only [decodeRle]
  rw [List.length_append, List.length_replicate]
  have hle := decodeRleAux_length_le data.length data fmt.bytesPerPixel n rfl
  omega

theorem decodeRle_zero_fill (data : List Nat) (fmt : ColorFormat) (n j : Nat)
    (hj1 : (decodeRleAux data fmt.bytesPerPixel n).length ≤ j) (hj2 : j < n) :
    (decodeRle data fmt n).get? j
      = some (List.replicate fmt.bytesPerPixel 0) := by
  simp only [decodeRle]
  rw [List.get?_append_right hj1, List.get?_eq_getElem?,
    List.getElem?_replicate, if_pos (by omega)]

theorem fromBytes_cons (m1 m2 vf r s1 s2 s3 s4 cf en n1 n2 : Nat)
    (rest : List Nat) :
    DataPacket.fromBytes
        (m1 :: m2 :: vf :: r :: s1 :: s2 :: s3 :: s4 :: cf :: en :: n1 :: n2
          :: rest)
      = if de16 m1 m2 ≠ PACKET_MAGIC then .error (.protocol .INVALID_FORMAT)
        else
          match ColorFormat.ofValue cf with
          | none => .error .valueError
          | some fmt =>
            match Encoding.ofValue en with
            | none => .error .valueError
            | some enc =>
              match enc with
              | .RAW => (decodeRaw rest fmt (de16 n1 n2)).map fun pd =>
                  ⟨de32 s1 s2 s3 s4, fmt, .RAW, vf % 16, pd⟩
              | .RLE => .ok ⟨de32 s1 s2 s3 s4, fmt, .RLE, vf % 16,
                  decodeRle rest fmt (de16 n1 n2)⟩
              | .DELTA => .error (.protocol .INVALID_FORMAT) := by
  rfl

theorem fromBytes_cons_raw (vf r s1 s2 s3 s4 cf n1 n2 : Nat) (rest : List Nat)
    (fmt : ColorFormat) (hcf : ColorFormat.ofValue cf = some fmt) :
    DataPacket.fromBytes (0x4C :: 0x54 :: vf :: r :: s1 :: s2 :: s3 :: s4 ::
        cf :: 0 :: n1 :: n2 :: rest)
      = (decodeRaw rest fmt (de16 n1 n2)).map fun pd =>
          ⟨de32 s1 s2 s3 s4, fmt, .RAW, vf % 16, pd⟩ := by
  rw [fromBytes_cons, if_neg (by decide), hcf]
  rfl

theorem fromBytes_cons_rle (vf r s1 s2 s3 s4 cf n1 n2 : Nat) (rest : List Nat)
    (fmt : ColorFormat) (hcf : ColorFormat.ofValue cf = some fmt) :
    DataPacket.fromBytes (0x4C :: 0x54 :: vf :: r :: s1 :: s2 :: s3 :: s4 ::
        cf :: 1 :: n1 :: n2 :: rest)
      = .ok ⟨de32 s1 s2 s3 s4, fmt, .RLE, vf % 16,
          decodeRle rest fmt (de16 n1 n2)⟩ := by
  rw [fromBytes_cons, if_neg (by decide), hcf]
  rfl

/-- Claim C1: for every packet whose pixel buffer holds 1..1000 RGB or RGBW
pixels (well-formed rows of byte values) and whose encoding is RAW or RLE,
serializing with `to_bytes` succeeds and parsing the result with
`from_bytes` yields a packet with the same pixel data, the sequence reduced
mod 2^32, and the same color format and encoding. -/
theorem C1_codec_roundtrip (p : DataPacket)
    (henc : p.encoding = .RAW ∨ p.encoding = .RLE)
    (hfmt : p.color_format = .RGB ∨ p.color_format = .RGBW)
    (hcnt1 : 1 ≤ p.pixel_data.length) (hcnt2 : p.pixel_data.length ≤ 1000)
    (hwf : ∀ px ∈ p.pixel_data, px.length = p.color_format.bytesPerPixel)
    (hbytes : ∀ px ∈ p.pixel_data, ∀ b ∈ px, b < 256) :
    ∃ bs, p.toBytes = .ok bs ∧
      ∃ q, DataPacket.fromBytes bs = .ok q ∧
        q.pixel_data = p.pixel_data ∧
        q.sequence = p.sequence % 4294967296 ∧
        q.color_format = p.color_format ∧
        q.encoding = p.encoding := by
  obtain ⟨seq, fmt, enc, flags, pd⟩ := p
  simp only at henc hfmt hcnt1 hcnt2 hwf hbytes
  have hseq : seq % 4294967296 < 4294967296 := Nat.mod_lt _ (by norm_num)
  have hn65 : ¬(DataPacket.pixelCount ⟨seq, fmt, enc, flags, pd⟩ ≥ 65536) := by
    simp only [DataPacket.pixelCount]
    omega
  rcases henc with rfl | rfl
  · -- RAW
    have htb : DataPacket.toBytes ⟨seq, fmt, .RAW, flags, pd⟩
        = .ok ([0x4C, 0x54, flags % 16, 0] ++ be32 (seq % 4294967296) ++
            [fmt.value, Encoding.value .RAW] ++
            be16 (DataPacket.pixelCount ⟨seq, fmt, .RAW, flags, pd⟩) ++
            encodeRaw pd) := by
      unfold DataPacket.toBytes
      rw [if_neg hn65]
    refine ⟨_, htb, ?_⟩
    simp only [DataPacket.pixelCount, be32, be16, Encoding.value,
      List.cons_append, List.nil_append]
    rw [fromBytes_cons_raw _ _ _ _ _ _ _ _ _ _ fmt
      (colorFormat_ofValue_value fmt)]
    rw [de16_be16 pd.length (by omega)]
    rw [decodeRaw_encodeRaw pd fmt hwf hbytes]
    refine ⟨_, rfl, rfl, ?_, rfl, rfl⟩
    exact de32_be32 (seq % 4294967296) hseq
  · -- RLE
    have htb : DataPacket.toBytes ⟨seq, fmt, .RLE, flags, pd⟩
        = .ok ([0x4C, 0x54, flags % 16, 0] ++ be32 (seq % 4294967296) ++
            [fmt.value, Encoding.value .RLE] ++
            be16 (DataPacket.pixelCount ⟨seq, fmt, .RLE, flags, pd⟩) ++
            encodeRle pd) := by
      unfold DataPacket.toBytes
      rw [if_neg hn65]
    refine ⟨_, htb, ?_⟩
    simp only [DataPacket.pixelCount, be32, be16, Encoding.value,
      List.cons_append, List.nil_append]
    rw [fromBytes_cons_rle _ _ _ _ _ _ _ _ _ _ fmt
      (colorFormat_ofValue_value fmt)]
    rw [de16_be16 pd.length (by omega)]
    rw [decodeRle_encodeRle pd fmt hwf]
    refine ⟨_, rfl, rfl, ?_, rfl, rfl⟩
    exact de32_be32 (seq % 4294967296) hseq

/-- Witness for C1: a 3-pixel RGB packet under RLE encoding with a sequence
above 2^32. -/
theorem C1_codec_roundtrip_witness :
    ∃ bs, (DataPacket.mk 4294967301 .RGB .RLE 0
        [[1, 2, 3], [1, 2, 3], [9, 9, 9]]).toBytes = .ok bs ∧
      ∃ q, DataPacket.fromBytes bs = .ok q ∧
        q.pixel_data = [[1, 2, 3], [1, 2, 3], [9, 9, 9]] ∧
        q.sequence = 4294967301 % 4294967296 ∧
        q.color_format = .RGB ∧
        q.encoding = .RLE :=
  C1_codec_roundtrip
    (DataPacket.mk 4294967301 .RGB .RLE 0 [[1, 2, 3], [1, 2, 3], [9, 9, 9]])
    (Or.inr rfl) (Or.inl rfl) (by decide) (by decide) (by decide) (by decide)

/-- Counterexample to claim C2: a 12-byte input with valid magic, a valid
color-format byte and the unrecognized encoding byte 5 fails with the plain
`ValueError` raised by `Encoding(...)` — not with
`ProtocolError(INVALID_FORMAT)` as the claim asserts for unknown encoding
bytes. -/
theorem C2_counterexample :
    DataPacket.fromBytes [0x4C, 0x54, 0, 0, 0, 0, 0, 7, 1, 5, 0, 0]
      = .error .valueError ∧
    (PacketErr.valueError : PacketErr) ≠ .protocol .INVALID_FORMAT :=
  ⟨rfl, by decide⟩

/-- Claim C2 (amended): `from_bytes` fails with
`ProtocolError(INVALID_FORMAT)` exactly when the input is shorter than the
8-byte packet header plus 4-byte frame header, or the magic bytes are not
`0x4C 0x54`, or (past a recognized color byte) the encoding byte is the
recognized-but-unsupported DELTA (2), or the encoding is RAW and the payload
undershoots `pixel_count * bytes_per_pixel`; an encoding byte outside the
`Encoding` enumeration (or a color byte outside `ColorFormat`) instead
raises a plain `ValueError`.  An RLE payload that undershoots never fails:
it yields exactly `pixel_count` pixels with the unwritten remainder
zero-filled. -/
theorem C2_parse_failure (data : List Nat) (hbytes : ∀ b ∈ data, b < 256) :
    (DataPacket.fromBytes data = .error (.protocol .INVALID_FORMAT) ↔
      invalidFormatCond data) ∧
    (∀ vf r s1 s2 s3 s4 cf n1 n2 rest fmt,
      data = 0x4C :: 0x54 :: vf :: r :: s1 :: s2 :: s3 :: s4 :: cf :: 1 ::
        n1 :: n2 :: rest →
      ColorFormat.ofValue cf = some fmt →
      ∃ pd, DataPacket.fromBytes data
          = .ok ⟨de32 s1 s2 s3 s4, fmt, .RLE, vf % 16, pd⟩ ∧
        pd.length = de16 n1 n2 ∧
        ∀ j, (decodeRleAux rest fmt.bytesPerPixel (de16 n1 n2)).length ≤ j →
          j < de16 n1 n2 →
          pd.get? j = some (List.replicate fmt.bytesPerPixel 0)) := by
  constructor
  · rcases data with _ | ⟨m1, _ | ⟨m2, _ | ⟨vf, _ | ⟨r, _ | ⟨s1, _ | ⟨s2,
      _ | ⟨s3, _ | ⟨s4, _ | ⟨cf, _ | ⟨en, _ | ⟨n1, _ | ⟨n2, rest⟩⟩⟩⟩⟩⟩⟩⟩⟩⟩⟩⟩
    · exact iff_of_true rfl trivial
    · exact iff_of_true rfl trivial
    · exact iff_of_true rfl trivial
    · exact iff_of_true rfl trivial
    · exact iff_of_true rfl trivial
    · exact iff_of_true rfl trivial
    · exact iff_of_true rfl trivial
    · exact iff_of_true rfl trivial
    · exact iff_of_true rfl trivial
    · exact iff_of_true rfl trivial
    · exact iff_of_true rfl trivial
    · exact iff_of_true rfl trivial
    · by_cases hm : m1 = 0x4C ∧ m2 = 0x54
      · obtain ⟨rfl, rfl⟩ := hm
        rw [fromBytes_cons, if_neg (by decide)]
        cases hcf : ColorFormat.ofValue cf with
        | none =>
          refine iff_of_false
            (fun h => PacketErr.noConfusion (Except.error.inj h)) ?_
          rintro (h | ⟨-, -, fmt2, hfmt2, -⟩)
          · exact h ⟨rfl, rfl⟩
          · rw [hcf] at hfmt2
            exact Option.noConfusion hfmt2
        | some fmt =>
          by_cases h2 : en = 2
          · subst h2
            exact iff_of_true rfl (Or.inr ⟨rfl, rfl, fmt, hcf, Or.inl rfl⟩)
          · by_cases h0 : en = 0
            · subst h0
              show ((decodeRaw rest fmt (de16 n1 n2)).map fun pd =>
                  (⟨de32 s1 s2 s3 s4, fmt, .RAW, vf % 16, pd⟩ : DataPacket))
                    = .error (.protocol .INVALID_FORMAT) ↔ _
              unfold decodeRaw
              by_cases hs : rest.length < de16 n1 n2 * fmt.bytesPerPixel
              · rw [if_pos hs]
                exact iff_of_true rfl
                  (Or.inr ⟨rfl, rfl, fmt, hcf, Or.inr ⟨rfl, hs⟩⟩)
              · rw [if_neg hs]
                refine iff_of_false (by simp [Except.map]) ?_
                rintro (h | ⟨-, -, fmt2, hfmt2, h2en | ⟨-, hshort⟩⟩)
                · exact h ⟨rfl, rfl⟩
                · exact absurd h2en (by decide)
                · rw [hcf] at hfmt2
                  injection hfmt2 with hf2
                  subst hf2
                  exact hs hshort
            · by_cases h1 : en = 1
              · subst h1
                refine iff_of_false (fun h => Except.noConfusion h) ?_
                rintro (h | ⟨-, -, fmt2, hfmt2, h2b | ⟨h0b, -⟩⟩)
                · exact h ⟨rfl, rfl⟩
                · exact absurd h2b (by decide)
                · exact absurd h0b (by decide)
              · have hen : Encoding.ofValue en = none := by
                  unfold Encoding.ofValue
                  rw [if_neg h0, if_neg h1, if_neg h2]
                rw [hen]
                refine iff_of_false
                  (fun h => PacketErr.noConfusion (Except.error.inj h)) ?_
                rintro (h | ⟨-, -, fmt2, hfmt2, h2b | ⟨h0b, -⟩⟩)
                · exact h ⟨rfl, rfl⟩
                · exact h2 h2b
                · exact h0 h0b
      · have hne : de16 m1 m2 ≠ PACKET_MAGIC := by
          have h1 : m1 < 256 := hbytes m1 (by simp)
          have h2 : m2 < 256 := hbytes m2 (by simp)
          unfold de16 PACKET_MAGIC
          intro hc
          exact hm ⟨by omega, by omega⟩
        rw [fromBytes_cons, if_pos hne]
        exact iff_of_true rfl (Or.inl hm)
  · rintro vf r s1 s2 s3 s4 cf n1 n2 rest fmt rfl hcf
    rw [fromBytes_cons_rle _ _ _ _ _ _ _ _ _ _ fmt hcf]
    exact ⟨decodeRle rest fmt (de16 n1 n2), rfl,
      decodeRle_length rest fmt (de16 n1 n2),
      fun j hj1 hj2 => decodeRle_zero_fill rest fmt (de16 n1 n2) j hj1 hj2⟩

/-- Witness for C2 (amended) at a 14-byte DELTA-encoded input (fails
INVALID_FORMAT) — the hypotheses are discharged concretely. -/
theorem C2_parse_failure_witness :
    (DataPacket.fromBytes [0x4C, 0x54, 0, 0, 0, 0, 0, 7, 1, 2, 0, 1, 9, 9]
        = .error (.protocol .INVALID_FORMAT) ↔
      invalidFormatCond [0x4C, 0x54, 0, 0, 0, 0, 0, 7, 1, 2, 0, 1, 9, 9]) ∧
    (∀ vf r s1 s2 s3 s4 cf n1 n2 rest fmt,
      [0x4C, 0x54, 0, 0, 0, 0, 0, 7, 1, 2, 0, 1, 9, 9]
        = 0x4C :: 0x54 :: vf :: r :: s1 :: s2 :: s3 :: s4 :: cf :: 1 ::
          n1 :: n2 :: rest →
      ColorFormat.ofValue cf = some fmt →
      ∃ pd, DataPacket.fromBytes
            [0x4C, 0x54, 0, 0, 0, 0, 0, 7, 1, 2, 0, 1, 9, 9]
          = .ok ⟨de32 s1 s2 s3 s4, fmt, .RLE, vf % 16, pd⟩ ∧
        pd.length = de16 n1 n2 ∧
        ∀ j, (decodeRleAux rest fmt.bytesPerPixel (de16 n1 n2)).length ≤ j →
          j < de16 n1 n2 →
          pd.get? j = some (List.replicate fmt.bytesPerPixel 0)) :=
  C2_parse_failure [0x4C, 0x54, 0, 0, 0, 0, 0, 7, 1, 2, 0, 1, 9, 9]
    (by decide)

end LTP
